import Mathlib

/-!
XrdFile: a shallow embedding of `src/XrdFile.cc`.

The handle `XrdFile` wraps one `XrdCl::File` session.  The embedding keeps the
five data members of the class, passes the state explicitly, and records every
call made on the `XrdCl::File` object in a trace.  The answers of the endpoint
client (status codes, byte counts, the stat size) are arguments of the
operations, so every theorem holds for every behaviour of the endpoint.

Integer conventions.  `IOOffset` is a signed 64-bit integer and `IOSize` an
unsigned 64-bit integer.  Both are embedded in `Int` / `Nat`; every addition
the code performs on an `IOOffset` is followed by `toInt64`, the reduction to
the two's complement range `[-2^63, 2^63)`.  The `offset` field of an
`XrdCl::ChunkInfo` is an unsigned 64-bit integer; the assignment from an
`IOOffset` is `toUInt64`.  Buffer pointers are byte addresses and stay inside
the caller's buffer, so they are plain naturals.

Abnormal ends.  A thrown exception keeps the object alive, so the state it
leaves behind is part of the result.  A failing `assert` and a call through the
null session pointer end the run; they are the two `CrashKind`s.  The naming
constructors are the default constructor followed by `open`.
-/

namespace XrdAdaptor

/-! ## Machine integers -/

/-- Reduction of an integer to the signed 64-bit range (two's complement). -/
def toInt64 (x : Int) : Int := (x + 2 ^ 63) % 2 ^ 64 - 2 ^ 63

/-- Conversion of an integer to an unsigned 64-bit value, as in the assignment
of an `IOOffset` to a `uint64_t`. -/
def toUInt64 (x : Int) : Nat := (x % 2 ^ 64).toNat

/-- The values an `IOOffset` variable can hold. -/
def InInt64 (x : Int) : Prop := -(2 ^ 63) ≤ x ∧ x < 2 ^ 63

instance (x : Int) : Decidable (InInt64 x) := by unfold InInt64; infer_instance

/-- The macro `XRD_CL_MAX_CHUNK`, `512*1024`. -/
def XRD_CL_MAX_CHUNK : Nat := 512 * 1024

/-! ## Flags -/

/-- The bits of `IOFlags` (declared by the storage framework).  A flag word is
embedded as the set of bits that are set in it. -/
inductive IOFlag where
  | OpenRead | OpenWrite | OpenNonBlock | OpenAppend | OpenUnbuffered
  | OpenCreate | OpenExclusive | OpenTruncate | OpenNotCTTY | OpenWrap
  deriving DecidableEq, Repr

/-- The bits of `XrdCl::OpenFlags` (declared by the client library).  The mode
word handed to `XrdCl::File::Open` is embedded as the set of bits set in it. -/
inductive OpenFlag where
  | Compress | Delete | Force | New | Read | Update | Async | Refresh
  | MakePath | Append | Replica | POSC | NoWait | SeqIO
  deriving DecidableEq, Repr

/-- The `whence` argument of `position`; `other` stands for any value of the
enumeration type different from the three named ones. -/
inductive Relative where
  | SET | CURRENT | END
  | other (raw : Int)
  deriving DecidableEq, Repr

/-! ## Vectored-read data -/

/-- One request of a positioned vectored read: `IOPosBuffer (offset, data, size)`. -/
structure IOPosBuffer where
  offset : Int
  data : Nat
  size : Nat
  deriving DecidableEq, Repr

/-- One request of the legacy vectored read: `IOBuffer (data, size)`. -/
structure IOBuffer where
  data : Nat
  size : Nat
  deriving DecidableEq, Repr

/-- An `XrdCl::ChunkInfo` as filled in by `readv`: the unsigned 64-bit
`offset`, the 32-bit `length` and the buffer address. -/
structure ChunkInfo where
  offset : Nat
  length : Nat
  buffer : Nat
  deriving DecidableEq, Repr

/-! ## Endpoint trace and results -/

/-- A call made on the `XrdCl::File` object (or its construction). -/
inductive EndpointCall where
  | construct
  | Open (name : String) (mode : Finset OpenFlag) (perms : Nat)
  | Stat (force : Bool)
  | Close
  | Read (offset : Int) (size : Nat)
  | Write (offset : Int) (size : Nat)
  | VectorRead (chunks : List ChunkInfo)
  | GetDataServer
  deriving DecidableEq

/-- The exception categories thrown by `XrdFile`. -/
inductive ErrorKind where
  | FileOpenError | FileReadError | FileWriteError | FilePositionError | FileResizeError
  deriving DecidableEq, Repr

/-- Abnormal termination that is not an exception. -/
inductive CrashKind where
  | assertFailed
  | nullDereference
  deriving DecidableEq, Repr

/-- How a member function ends. -/
inductive Outcome (α : Type) where
  | ok (value : α)
  | thrown (e : ErrorKind)
  | crash (c : CrashKind)
  deriving DecidableEq, Repr

/-- The data members of `XrdFile`; `m_file` is true when the owned pointer is
non-null. -/
structure XrdFile where
  m_file : Bool
  m_offset : Int
  m_size : Int
  m_close : Bool
  m_name : String
  deriving DecidableEq, Repr

/-- The result of a member function: outcome, state left behind, endpoint calls made. -/
structure Result (α : Type) where
  outcome : Outcome α
  state : XrdFile
  calls : List EndpointCall

/-- The default constructor `XrdFile::XrdFile (void)`. -/
def XrdFile.new : XrdFile :=
  { m_file := false, m_offset := 0, m_size := -1, m_close := false, m_name := "" }

/-- The calls made by `addConnection`: the data server is asked for only when a
session object exists. -/
def addConnection (st : XrdFile) : List EndpointCall :=
  if st.m_file then [EndpointCall.GetDataServer] else []

/-! ## Vectored read: chunking -/

/-- The body of the `for` loop of `readv` for one segment: the `while` loop
emits full chunks while more than `XRD_CL_MAX_CHUNK` bytes remain, then the
remainder chunk is emitted.  The loop variable `offset` is an `IOOffset`; the
assignment `ci.offset = offset` converts it to the unsigned field. -/
def splitSegment (offset : Int) (buffer : Nat) (length : Nat) : List ChunkInfo :=
  if XRD_CL_MAX_CHUNK < length then
    { offset := toUInt64 offset, length := XRD_CL_MAX_CHUNK, buffer := buffer } ::
      splitSegment (toInt64 (offset + XRD_CL_MAX_CHUNK)) (buffer + XRD_CL_MAX_CHUNK)
        (length - XRD_CL_MAX_CHUNK)
  else
    [{ offset := toUInt64 offset, length := length, buffer := buffer }]
termination_by length
decreasing_by
  simp only [XRD_CL_MAX_CHUNK] at *
  omega

/-- One iteration of the `for` loop of `readv`: the chunks pushed for segment `b`. -/
def segmentChunks (b : IOPosBuffer) : List ChunkInfo :=
  splitSegment b.offset b.data b.size

/-- The `for` loop of `readv`: the chunks of each segment are pushed to the back
of the chunk list `cl`, segment after segment. -/
def chunkLoop : List IOPosBuffer → List ChunkInfo → List ChunkInfo
  | [], cl => cl
  | b :: rest, cl => chunkLoop rest (cl ++ segmentChunks b)

/-- The chunk list `cl` that `readv` hands to `VectorRead`. -/
def chunkList (into : List IOPosBuffer) : List ChunkInfo := chunkLoop into []

/-! ## Answers of the endpoint client -/

/-- The answers the endpoint gives during one `open`: the status of the `Close`
of a previously owned session (used only when that close happens), the status
of `Open`, the status of `Stat`, and the stat record (`none` when the client
leaves the pointer null), whose size is the unsigned 64-bit `GetSize ()`. -/
structure OpenAnswer where
  closeOk : Bool
  openOk : Bool
  statOk : Bool
  statInfo : Option Nat

/-- The answer to one `Read`: status and the 32-bit `bytesRead`. -/
structure ReadAnswer where
  ok : Bool
  bytesRead : Nat

/-- The answer to one `VectorRead`: status and the size recorded in the
`VectorReadInfo` (`none` when the client leaves the pointer null). -/
structure VectorReadAnswer where
  ok : Bool
  info : Option Nat

/-- The answers `readv` may consume: one for the single-read path, one for the
batched path. -/
structure ReadvAnswer where
  single : ReadAnswer
  batched : VectorReadAnswer

namespace XrdFile

/-! ## Lifecycle -/

/-- The member `XrdFile::close`. -/
def close (st : XrdFile) (closeOk : Bool) : Result Unit :=
  if !st.m_file then
    { outcome := .ok (), state := { st with m_close := false }, calls := [] }
  else
    -- a failing Close is only logged
    let _warn := !closeOk
    { outcome := .ok (),
      state := { st with m_file := false, m_close := false, m_offset := 0, m_size := -1 },
      calls := [EndpointCall.Close] }

/-- The member `XrdFile::abort`. -/
def abort (st : XrdFile) : Result Unit :=
  { outcome := .ok (),
    state := { st with m_file := false, m_close := false, m_offset := 0, m_size := -1 },
    calls := [] }

/-- Lines 110-134 of `open`: the translation of the flag word into the mode
word `openflags`.  (The append rejection in the middle of these lines is part
of `open` below; it throws, so `openflags` is then never used.) -/
def translateFlags (flags : Finset IOFlag) : Finset OpenFlag :=
  let openflags : Finset OpenFlag := ∅
  let openflags :=
    if IOFlag.OpenWrite ∈ flags then insert OpenFlag.Update openflags
    else if IOFlag.OpenRead ∈ flags then insert OpenFlag.Read openflags
    else openflags
  let openflags :=
    if IOFlag.OpenCreate ∈ flags then
      let openflags :=
        if ¬ IOFlag.OpenExclusive ∈ flags then insert OpenFlag.Delete openflags else openflags
      let openflags := insert OpenFlag.New openflags
      insert OpenFlag.MakePath openflags
    else openflags
  if IOFlag.OpenTruncate ∈ flags ∧ IOFlag.OpenWrite ∈ flags then
    insert OpenFlag.Delete openflags
  else openflags

/-- The part of `open` that runs "if I am already open": an orderly close when
the handle owns the session, a silent abort otherwise. -/
def closeOld (st : XrdFile) (closeOk : Bool) : Result Unit :=
  if st.m_file then
    if st.m_close then close st closeOk else abort st
  else
    { outcome := .ok (), state := st, calls := [] }

/-- The member `XrdFile::open (const char *name, int flags, int perms)`; a null
`name` is `none`. -/
def «open» (st : XrdFile) (name : Option String) (flags : Finset IOFlag) (perms : Nat)
    (ans : OpenAnswer) : Result Unit :=
  match name with
  | none => { outcome := .thrown .FileOpenError, state := st, calls := [] }
  | some nm =>
    if nm = "" then
      { outcome := .thrown .FileOpenError, state := st, calls := [] }
    else if ¬ IOFlag.OpenRead ∈ flags ∧ ¬ IOFlag.OpenWrite ∈ flags then
      { outcome := .thrown .FileOpenError, state := st, calls := [] }
    else
      let old := closeOld st ans.closeOk
      let st1 := old.state
      let openflags := translateFlags flags
      if IOFlag.OpenAppend ∈ flags then
        { outcome := .thrown .FileOpenError, state := st1, calls := old.calls }
      else
        let st2 := { st1 with m_name := nm, m_file := true }
        let calls := old.calls ++ [EndpointCall.construct, EndpointCall.Open nm openflags perms]
        if !ans.openOk then
          { outcome := .thrown .FileOpenError, state := st2,
            calls := calls ++ addConnection st2 }
        else
          let calls := calls ++ [EndpointCall.Stat true]
          if !ans.statOk then
            { outcome := .thrown .FileOpenError, state := st2,
              calls := calls ++ addConnection st2 }
          else
            match ans.statInfo with
            | none => { outcome := .crash .assertFailed, state := st2, calls := calls }
            | some size =>
              { outcome := .ok (),
                state := { st2 with m_size := toInt64 size, m_offset := 0, m_close := true },
                calls := calls ++ [EndpointCall.GetDataServer] }

/-- The member `XrdFile::create`. -/
def create (st : XrdFile) (name : Option String) (exclusive : Bool) (perms : Nat)
    (ans : OpenAnswer) : Result Unit :=
  «open» st name
    ({IOFlag.OpenCreate, IOFlag.OpenWrite, IOFlag.OpenTruncate} ∪
      (if exclusive then {IOFlag.OpenExclusive} else ∅))
    perms ans

/-! ## Read and write -/

/-- The member `XrdFile::read (void *into, IOSize n)`.  The session pointer is
dereferenced without a null test. -/
def read (st : XrdFile) (n : Nat) (ans : ReadAnswer) : Result Nat :=
  if 0x7fffffff < n then
    { outcome := .thrown .FileReadError, state := st, calls := addConnection st }
  else if !st.m_file then
    { outcome := .crash .nullDereference, state := st, calls := [] }
  else
    let calls := [EndpointCall.Read st.m_offset n]
    if !ans.ok then
      { outcome := .thrown .FileReadError, state := st, calls := calls ++ addConnection st }
    else
      { outcome := .ok ans.bytesRead,
        state := { st with m_offset := toInt64 (st.m_offset + ans.bytesRead) },
        calls := calls }

/-- The member `XrdFile::read (void *into, IOSize n, IOOffset pos)`. -/
def readPos (st : XrdFile) (n : Nat) (pos : Int) (ans : ReadAnswer) : Result Nat :=
  if 0x7fffffff < n then
    { outcome := .thrown .FileReadError, state := st, calls := addConnection st }
  else if !st.m_file then
    { outcome := .crash .nullDereference, state := st, calls := [] }
  else
    let calls := [EndpointCall.Read pos n]
    if !ans.ok then
      { outcome := .thrown .FileReadError, state := st, calls := calls ++ addConnection st }
    else
      { outcome := .ok ans.bytesRead, state := st, calls := calls }

/-- The member `XrdFile::readv (IOPosBuffer *into, IOSize n)`; the array and its
count are the list `into`. -/
def readv (st : XrdFile) (into : List IOPosBuffer) (ans : ReadvAnswer) : Result Nat :=
  if !st.m_file then
    { outcome := .crash .assertFailed, state := st, calls := [] }
  else
    match into with
    | [] => { outcome := .ok 0, state := st, calls := [] }
    | [b] => readPos st b.size b.offset ans.single
    | _ =>
      let cl := chunkList into
      let calls := [EndpointCall.VectorRead cl]
      if !ans.batched.ok then
        { outcome := .thrown .FileReadError, state := st, calls := calls ++ addConnection st }
      else
        match ans.batched.info with
        | none => { outcome := .crash .assertFailed, state := st, calls := calls }
        | some size => { outcome := .ok size, state := st, calls := calls }

/-- The loop of the legacy `readv (IOBuffer *into, IOSize n)`: offsets are the
running sum of the sizes, starting from `off`. -/
def synthOffsets : List IOBuffer → Int → List IOPosBuffer
  | [], _ => []
  | b :: rest, off =>
    { offset := off, data := b.data, size := b.size } :: synthOffsets rest (toInt64 (off + b.size))

/-- The member `XrdFile::readv (IOBuffer *into, IOSize n)`. -/
def readvBuffers (st : XrdFile) (into : List IOBuffer) (ans : ReadvAnswer) : Result Nat :=
  readv st (synthOffsets into 0) ans

/-- The member `XrdFile::write (const void *from, IOSize n)`. -/
def write (st : XrdFile) (n : Nat) (writeOk : Bool) : Result Nat :=
  if 0x7fffffff < n then
    { outcome := .thrown .FileWriteError, state := st, calls := addConnection st }
  else if !st.m_file then
    { outcome := .crash .nullDereference, state := st, calls := [] }
  else
    let calls := [EndpointCall.Write st.m_offset n]
    if !writeOk then
      { outcome := .thrown .FileWriteError, state := st, calls := calls ++ addConnection st }
    else
      let st1 := { st with m_offset := toInt64 (st.m_offset + n) }
      if st1.m_size = -1 then
        { outcome := .crash .assertFailed, state := st1, calls := calls }
      else
        let st2 := if st1.m_size < st1.m_offset then { st1 with m_size := st1.m_offset } else st1
        { outcome := .ok n, state := st2, calls := calls }

/-- The member `XrdFile::write (const void *from, IOSize n, IOOffset pos)`. -/
def writePos (st : XrdFile) (n : Nat) (pos : Int) (writeOk : Bool) : Result Nat :=
  if 0x7fffffff < n then
    { outcome := .thrown .FileWriteError, state := st, calls := addConnection st }
  else if !st.m_file then
    { outcome := .crash .nullDereference, state := st, calls := [] }
  else
    let calls := [EndpointCall.Write pos n]
    if !writeOk then
      { outcome := .thrown .FileWriteError, state := st, calls := calls ++ addConnection st }
    else if st.m_size = -1 then
      { outcome := .crash .assertFailed, state := st, calls := calls }
    else
      let st1 := if st.m_size < toInt64 (pos + n) then { st with m_size := toInt64 (pos + n) } else st
      { outcome := .ok n, state := st1, calls := calls }

/-- The member `XrdFile::prefetch`. -/
def prefetch (_st : XrdFile) (_what : List IOPosBuffer) : Bool := false

/-! ## Positioning -/

/-- The tail of `position` after the `switch`: clamp, assert, extend the cached size. -/
def positionTail (st : XrdFile) : Result Int :=
  let st1 := if st.m_offset < 0 then { st with m_offset := 0 } else st
  if st1.m_size = -1 then
    { outcome := .crash .assertFailed, state := st1, calls := [] }
  else
    let st2 := if st1.m_size < st1.m_offset then { st1 with m_size := st1.m_offset } else st1
    { outcome := .ok st2.m_offset, state := st2, calls := [] }

/-- The member `XrdFile::position (IOOffset offset, Relative whence)`. -/
def position (st : XrdFile) (offset : Int) (whence : Relative) : Result Int :=
  if !st.m_file then
    { outcome := .thrown .FilePositionError, state := st, calls := addConnection st }
  else
    match whence with
    | .SET => positionTail { st with m_offset := offset }
    | .CURRENT => positionTail { st with m_offset := toInt64 (st.m_offset + offset) }
    | .END =>
      if st.m_size = -1 then
        { outcome := .crash .assertFailed, state := st, calls := [] }
      else
        positionTail { st with m_offset := toInt64 (st.m_size + offset) }
    | .other _ =>
      { outcome := .thrown .FilePositionError, state := st, calls := addConnection st }

/-- The member `XrdFile::resize`. -/
def resize (st : XrdFile) (_size : Int) : Result Unit :=
  { outcome := .thrown .FileResizeError, state := st, calls := addConnection st }

/-! ## Sequences of calls and sample data -/

/-- The state after a sequence of cursor-relative `write` calls of the given
lengths, each answered with success by the endpoint; `none` as soon as one call
does not return normally. -/
def writeSeq (st : XrdFile) : List Nat → Option XrdFile
  | [] => some st
  | n :: ns =>
    match (write st n true).outcome with
    | .ok _ => writeSeq (write st n true).state ns
    | _ => none

end XrdFile

/-- An endpoint that accepts everything and reports a file of 1000 bytes. -/
def sampleOpenAnswer : OpenAnswer :=
  { closeOk := true, openOk := true, statOk := true, statInfo := some 1000 }

/-- An endpoint whose `Open` fails. -/
def failingOpenAnswer : OpenAnswer :=
  { closeOk := true, openOk := false, statOk := false, statInfo := none }

/-- A successful read of 100 bytes and a successful batched read of 1048587 bytes. -/
def sampleReadvAnswer : ReadvAnswer :=
  { single := { ok := true, bytesRead := 100 },
    batched := { ok := true, info := some 1048587 } }

/-- An open handle on a file of 1000 bytes, cursor at 0. -/
def sampleOpen : XrdFile :=
  { m_file := true, m_offset := 0, m_size := 1000, m_close := true, m_name := "data.root" }

/-- Two segments: one of 1 MiB + 1 byte at offset 100, one of 10 bytes at offset 0. -/
def sampleSegments : List IOPosBuffer :=
  [{ offset := 100, data := 4096, size := 1048577 }, { offset := 0, data := 0, size := 10 }]

/-! ## Calls and reachable states -/

/-- One call of a public member function, with the answers of the endpoint
that the call may consume. -/
inductive Call where
  | «open» (name : Option String) (flags : Finset IOFlag) (perms : Nat) (ans : OpenAnswer)
  | create (name : Option String) (exclusive : Bool) (perms : Nat) (ans : OpenAnswer)
  | close (closeOk : Bool)
  | abort
  | read (n : Nat) (ans : ReadAnswer)
  | readPos (n : Nat) (pos : Int) (ans : ReadAnswer)
  | readv (into : List IOPosBuffer) (ans : ReadvAnswer)
  | readvBuffers (into : List IOBuffer) (ans : ReadvAnswer)
  | write (n : Nat) (writeOk : Bool)
  | writePos (n : Nat) (pos : Int) (writeOk : Bool)
  | position (offset : Int) (whence : Relative)
  | resize (size : Int)
  | prefetch (what : List IOPosBuffer)

/-- The stat size of an answer is a byte count that fits the signed 64-bit
`m_size`. -/
def OpenAnswer.wellTyped (ans : OpenAnswer) : Bool :=
  match ans.statInfo with
  | some size => decide (size < 2 ^ 63)
  | none => true

/-- The byte counts of an answer fit the 32-bit variables that receive them. -/
def ReadvAnswer.wellTyped (ans : ReadvAnswer) : Bool :=
  decide (ans.single.bytesRead < 2 ^ 32) &&
    (match ans.batched.info with
     | some size => decide (size < 2 ^ 32)
     | none => true)

/-- The arguments of a call are values of their C++ types: offsets are signed
64-bit, sizes unsigned 64-bit, byte counts reported by the endpoint 32-bit. -/
def Call.wellTyped : Call → Bool
  | .open _ _ _ ans => ans.wellTyped
  | .create _ _ _ ans => ans.wellTyped
  | .close _ => true
  | .abort => true
  | .read n ans => decide (n < 2 ^ 64) && decide (ans.bytesRead < 2 ^ 32)
  | .readPos n pos ans =>
    decide (n < 2 ^ 64) && decide (InInt64 pos) && decide (ans.bytesRead < 2 ^ 32)
  | .readv into ans =>
    into.all (fun b => decide (InInt64 b.offset) && decide (b.size < 2 ^ 64)) && ans.wellTyped
  | .readvBuffers into ans =>
    into.all (fun b => decide (b.size < 2 ^ 64)) && ans.wellTyped
  | .write n _ => decide (n < 2 ^ 64)
  | .writePos n pos _ => decide (n < 2 ^ 64) && decide (InInt64 pos)
  | .position offset _ => decide (InInt64 offset)
  | .resize size => decide (InInt64 size)
  | .prefetch _ => true

/-- The handle after a member function ended: a return and a thrown exception
both leave the object alive; a crash leaves nothing to call. -/
def survives {α : Type} (r : Result α) : Option XrdFile :=
  match r.outcome with
  | .crash _ => none
  | _ => some r.state

/-- The handle after one call, if the call returns or throws. -/
def Call.after (st : XrdFile) : Call → Option XrdFile
  | .open name flags perms ans => survives (XrdFile.open st name flags perms ans)
  | .create name exclusive perms ans => survives (XrdFile.create st name exclusive perms ans)
  | .close closeOk => survives (XrdFile.close st closeOk)
  | .abort => survives (XrdFile.abort st)
  | .read n ans => survives (XrdFile.read st n ans)
  | .readPos n pos ans => survives (XrdFile.readPos st n pos ans)
  | .readv into ans => survives (XrdFile.readv st into ans)
  | .readvBuffers into ans => survives (XrdFile.readvBuffers st into ans)
  | .write n writeOk => survives (XrdFile.write st n writeOk)
  | .writePos n pos writeOk => survives (XrdFile.writePos st n pos writeOk)
  | .position offset whence => survives (XrdFile.position st offset whence)
  | .resize size => survives (XrdFile.resize st size)
  | .prefetch _ => some st

/-- The handle after a sequence of calls, each of which must satisfy the side
condition `allowed` in the state it is made in; `none` when a call crashes or is
not admitted. -/
def runCalls (allowed : XrdFile → Call → Bool) : XrdFile → List Call → Option XrdFile
  | st, [] => some st
  | st, c :: cs =>
    if allowed st c then
      match Call.after st c with
      | some st1 => runCalls allowed st1 cs
      | none => none
    else none

/-- A state reachable from a newly constructed handle by well-typed calls. -/
def Reachable (st : XrdFile) : Prop :=
  ∃ cs : List Call, runCalls (fun _ c => c.wellTyped) XrdFile.new cs = some st

/-- A state reachable from a newly constructed handle by calls with arbitrary
arguments and answers (a superset of `Reachable`). -/
def ReachableAny (st : XrdFile) : Prop :=
  ∃ cs : List Call, runCalls (fun _ _ => true) XrdFile.new cs = some st

/-- The cursor-relative transfer of call `c` made in state `st` does not carry
the cursor past `2^63 - 1`: a successful `read` of `bytesRead` bytes, a
successful `write` of `n` bytes. -/
def Call.noWrap (st : XrdFile) : Call → Bool
  | .read _ ans => !ans.ok || decide (st.m_offset + (ans.bytesRead : Int) < 2 ^ 63)
  | .write n writeOk => !writeOk || decide (st.m_offset + (n : Int) < 2 ^ 63)
  | _ => true

/-- A state reachable from a newly constructed handle by calls none of which
carries the cursor past `2^63 - 1`. -/
def ReachableNoWrap (st : XrdFile) : Prop :=
  ∃ cs : List Call, runCalls (fun s c => Call.noWrap s c) XrdFile.new cs = some st

/-- The calls that work inside an open session: reads, writes, vectored reads
and positioning. -/
def Call.inSession : Call → Bool
  | .read _ _ => true
  | .readPos _ _ _ => true
  | .readv _ _ => true
  | .readvBuffers _ _ => true
  | .write _ _ => true
  | .writePos _ _ _ => true
  | .position _ _ => true
  | _ => false

/-- The endpoint calls that carry a request: everything but the construction
of the client object and the data-server query used for diagnostics. -/
def EndpointCall.isRequest : EndpointCall → Bool
  | .construct => false
  | .GetDataServer => false
  | _ => true

/-- The calls that open a file, seek to the last representable offset and write
one byte there. -/
def overflowCalls : List Call :=
  [Call.open (some "data.root") {IOFlag.OpenWrite} 438 sampleOpenAnswer,
   Call.position (2 ^ 63 - 1) .SET,
   Call.write 1 true]

/-- The state the calls `overflowCalls` lead to. -/
def overflowState : XrdFile :=
  { m_file := true, m_offset := -(2 ^ 63), m_size := 2 ^ 63 - 1, m_close := true,
    m_name := "data.root" }

/-- The calls that open a file, seek far before its start and write 100 bytes. -/
def seekWriteCalls : List Call :=
  [Call.open (some "data.root") {IOFlag.OpenWrite} 438 sampleOpenAnswer,
   Call.position (-(2 ^ 62)) .CURRENT,
   Call.write 100 true]

/-- The state the calls `seekWriteCalls` lead to. -/
def seekWriteState : XrdFile :=
  { m_file := true, m_offset := 100, m_size := 1000, m_close := true, m_name := "data.root" }

/-! ## Inputs at the edge of the 64-bit range -/

/-- Two segments, the first of 512 KiB + 1 byte at offset -1. -/
def negativeSegments : List IOPosBuffer :=
  [{ offset := -1, data := 4096, size := 524289 }, { offset := 0, data := 0, size := 10 }]

/-- Two segments of 10 bytes, the first at offset -1. -/
def negativeShortSegments : List IOPosBuffer :=
  [{ offset := -1, data := 4096, size := 10 }, { offset := 0, data := 0, size := 10 }]

/-- A segment that starts at the last signed offset and is longer than `2^63` bytes. -/
def hugeSegment : IOPosBuffer :=
  { offset := 2 ^ 63 - 1, data := 0, size := 2 ^ 63 + 524289 }

/-- An endpoint that accepts everything and reports the size `2^64 - 1`. -/
def sentinelStatAnswer : OpenAnswer :=
  { closeOk := true, openOk := true, statOk := true, statInfo := some (2 ^ 64 - 1) }

/-- An endpoint that accepts everything and reports the size `2^63`. -/
def halfStatAnswer : OpenAnswer :=
  { closeOk := true, openOk := true, statOk := true, statInfo := some (2 ^ 63) }

/-- The calls that open a file and seek to the last representable offset. -/
def lastOffsetCalls : List Call :=
  [Call.open (some "data.root") {IOFlag.OpenWrite} 438 sampleOpenAnswer,
   Call.position (2 ^ 63 - 1) .SET]

/-- The state the calls `lastOffsetCalls` lead to. -/
def lastOffsetState : XrdFile :=
  { m_file := true, m_offset := 2 ^ 63 - 1, m_size := 2 ^ 63 - 1, m_close := true,
    m_name := "data.root" }

/-! ## Arithmetic of `toInt64` -/

theorem toInt64_of_inInt64 {x : Int} (h : InInt64 x) : toInt64 x = x := by
  unfold InInt64 at h
  unfold toInt64
  omega

theorem inInt64_toInt64 (x : Int) : InInt64 (toInt64 x) := by
  unfold InInt64 toInt64
  omega

theorem toInt64_emod (x : Int) : (toInt64 x - x) % 2 ^ 64 = 0 := by
  unfold toInt64
  omega

theorem toInt64_toInt64_add (x y : Int) : toInt64 (toInt64 x + y) = toInt64 (x + y) := by
  unfold toInt64
  omega

/-! ## The chunks of one segment -/

theorem toUInt64_cast (x : Int) : ((toUInt64 x : Nat) : Int) = x % 2 ^ 64 := by
  unfold toUInt64
  exact Int.toNat_of_nonneg (Int.emod_nonneg x (by norm_num))

theorem splitSegment_small {offset : Int} {buffer length : Nat}
    (h : length ≤ XRD_CL_MAX_CHUNK) :
    splitSegment offset buffer length =
      [{ offset := toUInt64 offset, length := length, buffer := buffer }] := by
  rw [splitSegment, if_neg (by omega)]

theorem splitSegment_large {offset : Int} {buffer length : Nat}
    (h : XRD_CL_MAX_CHUNK < length) :
    splitSegment offset buffer length =
      { offset := toUInt64 offset, length := XRD_CL_MAX_CHUNK, buffer := buffer } ::
        splitSegment (toInt64 (offset + XRD_CL_MAX_CHUNK)) (buffer + XRD_CL_MAX_CHUNK)
          (length - XRD_CL_MAX_CHUNK) := by
  rw [splitSegment, if_pos h]

theorem splitSegment_length (length : Nat) : ∀ (offset : Int) (buffer : Nat),
    0 < length →
    (splitSegment offset buffer length).length = (length + 524287) / 524288 := by
  induction length using Nat.strong_induction_on with
  | _ L ih =>
    intro o b hpos
    by_cases h : XRD_CL_MAX_CHUNK < L
    · rw [splitSegment_large h, List.length_cons, ih (L - XRD_CL_MAX_CHUNK)]
      all_goals simp only [XRD_CL_MAX_CHUNK] at *
      all_goals omega
    · rw [splitSegment_small (by omega)]
      simp only [XRD_CL_MAX_CHUNK] at *
      simp only [List.length_singleton]
      omega

theorem splitSegment_sum (length : Nat) : ∀ (offset : Int) (buffer : Nat),
    ((splitSegment offset buffer length).map ChunkInfo.length).sum = length := by
  induction length using Nat.strong_induction_on with
  | _ L ih =>
    intro o b
    by_cases h : XRD_CL_MAX_CHUNK < L
    · rw [splitSegment_large h, List.map_cons, List.sum_cons, ih (L - XRD_CL_MAX_CHUNK)]
      all_goals simp only [XRD_CL_MAX_CHUNK] at *
      all_goals omega
    · rw [splitSegment_small (by omega)]
      simp

theorem splitSegment_le (length : Nat) : ∀ (offset : Int) (buffer : Nat),
    ∀ c ∈ splitSegment offset buffer length, c.length ≤ XRD_CL_MAX_CHUNK := by
  induction length using Nat.strong_induction_on with
  | _ L ih =>
    intro o b c hc
    by_cases h : XRD_CL_MAX_CHUNK < L
    · rw [splitSegment_large h, List.mem_cons] at hc
      rcases hc with rfl | hc
      · exact le_refl _
      · exact ih (L - XRD_CL_MAX_CHUNK) (by simp only [XRD_CL_MAX_CHUNK] at *; omega) _ _ c hc
    · rw [splitSegment_small (by omega), List.mem_singleton] at hc
      subst hc
      simpa using h

/-- The chunk at index `k` of a segment: its buffer, its length, and its offset,
which is the segment's offset plus `k` full chunks, as an unsigned 64-bit
value. -/
theorem splitSegment_getElem (length : Nat) : ∀ (offset : Int) (buffer k : Nat) (c : ChunkInfo),
    (splitSegment offset buffer length)[k]? = some c →
      c.buffer = buffer + k * 524288 ∧
      k * 524288 + c.length ≤ length ∧
      (0 < k → k * 524288 < length) ∧
      ((splitSegment offset buffer length)[k + 1]? ≠ none → c.length = 524288) ∧
      (c.offset : Int) = (offset + (k : Int) * 524288) % 2 ^ 64 := by
  induction length using Nat.strong_induction_on with
  | _ L ih =>
    intro o b k c hc
    by_cases h : XRD_CL_MAX_CHUNK < L
    · rw [splitSegment_large h] at hc ⊢
      have hL : 524288 < L := by simpa [XRD_CL_MAX_CHUNK] using h
      cases k with
      | zero =>
        simp only [List.getElem?_cons_zero, Option.some.injEq] at hc
        subst hc
        simp only [XRD_CL_MAX_CHUNK]
        refine ⟨by omega, by omega, by omega, fun _ => by norm_num, ?_⟩
        rw [toUInt64_cast]
        simp
      | succ k =>
        simp only [List.getElem?_cons_succ] at hc ⊢
        have hlt : L - XRD_CL_MAX_CHUNK < L := by simp only [XRD_CL_MAX_CHUNK]; omega
        obtain ⟨h1, h2, h3, h4, h5⟩ := ih _ hlt _ _ k c hc
        have hmod := toInt64_emod (o + (XRD_CL_MAX_CHUNK : Nat))
        simp only [XRD_CL_MAX_CHUNK] at h1 h2 h3 h4 h5 hmod
        refine ⟨by omega, by omega, fun _ => by omega, h4, ?_⟩
        rw [h5]
        push_cast at hmod ⊢
        omega
    · rw [splitSegment_small (by omega)] at hc ⊢
      cases k with
      | zero =>
        simp only [List.getElem?_cons_zero, Option.some.injEq] at hc
        subst hc
        refine ⟨by simp, by simp, by omega, fun hne => by simp at hne, ?_⟩
        rw [toUInt64_cast]
        simp
      | succ k => simp at hc

/-! ## The chunk list of a vectored read -/

theorem chunkLoop_eq (into : List IOPosBuffer) : ∀ cl : List ChunkInfo,
    chunkLoop into cl = cl ++ (into.map segmentChunks).flatten := by
  induction into with
  | nil => intro cl; simp [chunkLoop]
  | cons b rest ih => intro cl; simp [chunkLoop, ih]

theorem chunkList_eq (into : List IOPosBuffer) :
    chunkList into = (into.map segmentChunks).flatten := by
  simp [chunkList, chunkLoop_eq]

theorem chunkList_append (xs ys : List IOPosBuffer) :
    chunkList (xs ++ ys) = chunkList xs ++ chunkList ys := by
  simp [chunkList_eq]

theorem chunkList_cons (b : IOPosBuffer) (rest : List IOPosBuffer) :
    chunkList (b :: rest) = segmentChunks b ++ chunkList rest := by
  simp [chunkList_eq]

theorem chunkList_split (into : List IOPosBuffer) (i : Nat) (b : IOPosBuffer)
    (hb : into[i]? = some b) :
    chunkList into =
      chunkList (into.take i) ++ segmentChunks b ++ chunkList (into.drop (i + 1)) := by
  obtain ⟨hi, rfl⟩ := List.getElem?_eq_some.mp hb
  have h : into = into.take i ++ into[i] :: into.drop (i + 1) := by
    rw [← List.drop_eq_getElem_cons hi, List.take_append_drop]
  conv_lhs => rw [h]
  rw [chunkList_append, chunkList_cons, List.append_assoc]

theorem chunkList_sum (into : List IOPosBuffer) :
    ((chunkList into).map ChunkInfo.length).sum = (into.map IOPosBuffer.size).sum := by
  rw [chunkList_eq]
  induction into with
  | nil => simp
  | cons b rest ih =>
    simp only [List.map_cons, List.flatten_cons, List.map_append, List.sum_append, List.sum_cons, ih]
    rw [segmentChunks, splitSegment_sum]

theorem chunkList_le (into : List IOPosBuffer) :
    ∀ c ∈ chunkList into, c.length ≤ XRD_CL_MAX_CHUNK := by
  intro c hc
  rw [chunkList_eq, List.mem_flatten] at hc
  obtain ⟨seg, hseg, hc⟩ := hc
  obtain ⟨b, _, rfl⟩ := List.mem_map.mp hseg
  exact splitSegment_le _ _ _ c hc

/-- On an open handle a vectored read of two or more segments issues exactly one
`VectorRead`, with the chunk list built by the loop, as its first endpoint call. -/
theorem readv_calls (st : XrdFile) (into : List IOPosBuffer) (ans : ReadvAnswer)
    (hopen : st.m_file = true) (hcount : 2 ≤ into.length) :
    ∃ rest, (XrdFile.readv st into ans).calls =
      EndpointCall.VectorRead (chunkList into) :: rest := by
  match into, hcount with
  | b1 :: b2 :: tl, _ =>
    simp only [XrdFile.readv, hopen]
    cases ans.batched.ok
    · exact ⟨_, rfl⟩
    · cases ans.batched.info <;> exact ⟨_, rfl⟩

/-! ## C1, C2: chunking of a vectored read -/

/-- A segment of 512 KiB + 1 byte at offset `2^63 - 100`: the loop variable
wraps, and the second chunk's unsigned offset is 9223372036855299996, the first
offset plus 524288. -/
theorem splitSegment_crossing :
    splitSegment (2 ^ 63 - 100) 4096 524289 =
      [{ offset := 9223372036854775708, length := 524288, buffer := 4096 },
       { offset := 9223372036855299996, length := 1, buffer := 528384 }] := by
  rw [splitSegment_large (by decide), splitSegment_small (by decide)]
  simp [XRD_CL_MAX_CHUNK, toInt64, toUInt64]

/-- The list handed to `VectorRead` for `negativeSegments`. -/
theorem chunkList_negative :
    chunkList negativeSegments =
      [{ offset := 2 ^ 64 - 1, length := 524288, buffer := 4096 },
       { offset := 524287, length := 1, buffer := 528384 },
       { offset := 0, length := 10, buffer := 0 }] := by
  have e1 : splitSegment (-1) 4096 524289 =
      [{ offset := 2 ^ 64 - 1, length := 524288, buffer := 4096 },
       { offset := 524287, length := 1, buffer := 528384 }] := by
    rw [splitSegment_large (by decide), splitSegment_small (by decide)]
    simp [XRD_CL_MAX_CHUNK, toInt64, toUInt64]
  have e2 : splitSegment 0 0 10 = [{ offset := 0, length := 10, buffer := 0 }] := by
    rw [splitSegment_small (by decide)]
    simp [toUInt64]
  simp [negativeSegments, chunkList_eq, segmentChunks, e1, e2]

/-- The list handed to `VectorRead` for `negativeShortSegments`. -/
theorem chunkList_negativeShort :
    chunkList negativeShortSegments =
      [{ offset := 2 ^ 64 - 1, length := 10, buffer := 4096 },
       { offset := 0, length := 10, buffer := 0 }] := by
  have e1 : splitSegment (-1) 4096 10 =
      [{ offset := 2 ^ 64 - 1, length := 10, buffer := 4096 }] := by
    rw [splitSegment_small (by decide)]
    simp [toUInt64]
  have e2 : splitSegment 0 0 10 = [{ offset := 0, length := 10, buffer := 0 }] := by
    rw [splitSegment_small (by decide)]
    simp [toUInt64]
  simp [negativeShortSegments, chunkList_eq, segmentChunks, e1, e2]

/-- The chunks of `hugeSegment` at the indices `2^44` and `2^44 + 1`: the first
ends at the top of the unsigned 64-bit range, the second starts again near 0. -/
theorem hugeSegment_chunks :
    ∃ c d : ChunkInfo,
      (segmentChunks hugeSegment)[2 ^ 44]? = some c ∧
      (segmentChunks hugeSegment)[2 ^ 44 + 1]? = some d ∧
      c.offset = 2 ^ 64 - 1 ∧ c.length = 524288 ∧
      d.offset = 524287 ∧ d.buffer = (2 ^ 44 + 1) * 524288 := by
  have hlen : (segmentChunks hugeSegment).length = 2 ^ 44 + 2 := by
    rw [segmentChunks, splitSegment_length _ _ _ (by simp [hugeSegment])]
    simp [hugeSegment]
  have h1 : 2 ^ 44 < (segmentChunks hugeSegment).length := by rw [hlen]; omega
  have h2 : 2 ^ 44 + 1 < (segmentChunks hugeSegment).length := by rw [hlen]; omega
  have e1 := List.getElem?_eq_getElem h1
  have e2 := List.getElem?_eq_getElem h2
  refine ⟨_, _, e1, e2, ?_⟩
  have p1 := splitSegment_getElem _ _ _ _ _ e1
  have p2 := splitSegment_getElem _ _ _ _ _ e2
  have hlen1 := p1.2.2.2.1 (by
    have : (segmentChunks hugeSegment)[2 ^ 44 + 1]? ≠ none := by rw [e2]; simp
    exact this)
  have hoff : hugeSegment.offset = 2 ^ 63 - 1 := rfl
  have hdata : hugeSegment.data = 0 := rfl
  have o1 : ((segmentChunks hugeSegment)[2 ^ 44].offset : Int) = 2 ^ 64 - 1 := by
    rw [p1.2.2.2.2, hoff]
    norm_num
  have o2 : ((segmentChunks hugeSegment)[2 ^ 44 + 1].offset : Int) = 524287 := by
    rw [p2.2.2.2.2, hoff]
    norm_num
  have b2 := p2.1
  rw [hdata] at b2
  refine ⟨?_, hlen1, ?_, ?_⟩
  · omega
  · omega
  · rw [b2]; simp

/-- C1 (as stated, refuted): for the segment of 524289 bytes at offset -1 the
list handed to `VectorRead` starts with a chunk at offset `2^64 - 1`, not at the
segment's offset, and the next chunk is at 524287, not at the previous offset
plus the previous length; for a non-negative offset the same break happens
where `hugeSegment` passes `2^64`. -/
theorem C1_counterexample :
    (XrdFile.readv sampleOpen negativeSegments sampleReadvAnswer).calls =
      [EndpointCall.VectorRead
        [{ offset := 2 ^ 64 - 1, length := 524288, buffer := 4096 },
         { offset := 524287, length := 1, buffer := 528384 },
         { offset := 0, length := 10, buffer := 0 }]] ∧
    (((2 ^ 64 - 1 : Nat) : Int) ≠ -1) ∧
    (524287 ≠ (2 ^ 64 - 1) + 524288) ∧
    (∃ c d : ChunkInfo,
      (segmentChunks hugeSegment)[2 ^ 44]? = some c ∧
      (segmentChunks hugeSegment)[2 ^ 44 + 1]? = some d ∧
      d.offset ≠ c.offset + c.length) := by
  refine ⟨?_, by decide, by decide, ?_⟩
  · have h : XrdFile.readv sampleOpen negativeSegments sampleReadvAnswer =
        { outcome := .ok 1048587, state := sampleOpen,
          calls := [EndpointCall.VectorRead (chunkList negativeSegments)] } := by
      simp [XrdFile.readv, sampleOpen, negativeSegments, sampleReadvAnswer]
    rw [h, chunkList_negative]
  · obtain ⟨c, d, hc, hd, h1, h2, h3, _⟩ := hugeSegment_chunks
    exact ⟨c, d, hc, hd, by rw [h1, h2, h3]; decide⟩

/-- C1 (amended): on an open handle, `readv` with two or more segments hands
`VectorRead` a chunk list in which a segment `b` of length `L > 524288` (at any
index `i`) is represented by the block `segmentChunks b` of exactly
`ceil (L / 524288)` consecutive chunks, placed after the chunks of the earlier
segments and before those of the later ones, whose lengths sum to `L`.  The
first chunk's offset is the segment's offset as an unsigned 64-bit value and
each following chunk's offset is the previous chunk's offset plus the previous
chunk's length modulo `2^64`.  When the segment's offset is non-negative and
`offset + L ≤ 2^64`, the first chunk starts at the segment's offset itself and
each following offset is exactly the previous offset plus the previous
length. -/
theorem C1_readv_long_segment_split (st : XrdFile) (into : List IOPosBuffer)
    (ans : ReadvAnswer) (hopen : st.m_file = true) (hcount : 2 ≤ into.length)
    (i : Nat) (b : IOPosBuffer) (hb : into[i]? = some b) (hL : 524288 < b.size) :
    (∃ rest : List EndpointCall,
      (XrdFile.readv st into ans).calls =
        EndpointCall.VectorRead
          (chunkList (into.take i) ++ segmentChunks b ++ chunkList (into.drop (i + 1)))
            :: rest) ∧
    (segmentChunks b).length = (b.size + 524287) / 524288 ∧
    (segmentChunks b).head?.map ChunkInfo.offset = some (toUInt64 b.offset) ∧
    (∀ k c d, (segmentChunks b)[k]? = some c → (segmentChunks b)[k + 1]? = some d →
      d.offset = (c.offset + c.length) % 2 ^ 64) ∧
    ((segmentChunks b).map ChunkInfo.length).sum = b.size ∧
    (0 ≤ b.offset → b.offset + b.size ≤ 2 ^ 64 →
      ((toUInt64 b.offset : Nat) : Int) = b.offset ∧
      ∀ k c d, (segmentChunks b)[k]? = some c → (segmentChunks b)[k + 1]? = some d →
        d.offset = c.offset + c.length) := by
  obtain ⟨rest, hrest⟩ := readv_calls st into ans hopen hcount
  have hstep : ∀ k c d, (segmentChunks b)[k]? = some c → (segmentChunks b)[k + 1]? = some d →
      c.length = 524288 ∧ (k + 1) * 524288 < b.size ∧
      (c.offset : Int) = (b.offset + (k : Int) * 524288) % 2 ^ 64 ∧
      (d.offset : Int) = (b.offset + ((k + 1 : Nat) : Int) * 524288) % 2 ^ 64 := by
    intro k c d hc hd
    have hc' := splitSegment_getElem _ _ _ _ _ hc
    have hd' := splitSegment_getElem _ _ _ _ _ hd
    exact ⟨hc'.2.2.2.1 (by rw [segmentChunks] at hd; simp [hd]), hd'.2.2.1 (Nat.succ_pos k),
      hc'.2.2.2.2, hd'.2.2.2.2⟩
  refine ⟨⟨rest, ?_⟩, ?_, ?_, ?_, ?_, ?_⟩
  · rw [hrest, chunkList_split into i b hb]
  · exact splitSegment_length _ _ _ (by omega)
  · rw [segmentChunks, splitSegment_large (by simpa [XRD_CL_MAX_CHUNK] using hL)]
    rfl
  · intro k c d hc hd
    obtain ⟨h1, _, h3, h4⟩ := hstep k c d hc hd
    rw [h1]
    push_cast at h4
    omega
  · exact splitSegment_sum _ _ _
  · intro hpos hsum
    refine ⟨?_, ?_⟩
    · rw [toUInt64_cast]
      omega
    · intro k c d hc hd
      obtain ⟨h1, h2, h3, h4⟩ := hstep k c d hc hd
      rw [h1]
      push_cast at h4
      omega

/-- C2 (as stated, refuted): for the 10-byte segment at offset -1 the single
chunk handed to `VectorRead` has offset `2^64 - 1`, not the segment's own
offset, and its buffer is not the segment's buffer advanced by (chunk offset -
segment offset); for a non-negative offset the same happens where
`hugeSegment` passes `2^64`. -/
theorem C2_counterexample :
    (XrdFile.readv sampleOpen negativeShortSegments sampleReadvAnswer).calls =
      [EndpointCall.VectorRead
        [{ offset := 2 ^ 64 - 1, length := 10, buffer := 4096 },
         { offset := 0, length := 10, buffer := 0 }]] ∧
    (((2 ^ 64 - 1 : Nat) : Int) ≠ -1) ∧
    ((4096 : Int) ≠ 4096 + (((2 ^ 64 - 1 : Nat) : Int) - (-1))) ∧
    (∃ d : ChunkInfo,
      (segmentChunks hugeSegment)[2 ^ 44 + 1]? = some d ∧
      (d.buffer : Int) ≠ (hugeSegment.data : Int) + ((d.offset : Int) - hugeSegment.offset)) := by
  refine ⟨?_, by decide, by decide, ?_⟩
  · have h : XrdFile.readv sampleOpen negativeShortSegments sampleReadvAnswer =
        { outcome := .ok 1048587, state := sampleOpen,
          calls := [EndpointCall.VectorRead (chunkList negativeShortSegments)] } := by
      simp [XrdFile.readv, sampleOpen, negativeShortSegments, sampleReadvAnswer]
    rw [h, chunkList_negativeShort]
  · obtain ⟨c, d, _, hd, _, _, h3, h4⟩ := hugeSegment_chunks
    refine ⟨d, hd, ?_⟩
    rw [h3, h4]
    simp [hugeSegment]

/-- C2 (amended): on an open handle, `readv` with two or more segments hands
`VectorRead` the concatenation, in input order, of one non-empty block
`segmentChunks b` per segment `b`; every chunk has length at most 524288; a
segment of length at most 524288 (also 0) gives a single chunk with the
segment's buffer and length and with the segment's offset as an unsigned 64-bit
value; each chunk's buffer lies at or after the segment's buffer and the
chunk's offset is the segment's offset plus the buffer advance, modulo `2^64`;
and the chunk lengths sum to the sum of the segment lengths.  When the
segment's offset is non-negative and `offset + length < 2^64`, a short segment's
chunk carries the segment's own offset and each chunk's buffer is the segment's
buffer advanced by exactly (chunk offset - segment offset). -/
theorem C2_readv_chunk_list (st : XrdFile) (into : List IOPosBuffer)
    (ans : ReadvAnswer) (hopen : st.m_file = true) (hcount : 2 ≤ into.length) :
    (∃ rest : List EndpointCall,
      (XrdFile.readv st into ans).calls =
        EndpointCall.VectorRead (into.map segmentChunks).flatten :: rest) ∧
    (∀ c ∈ (into.map segmentChunks).flatten, c.length ≤ 524288) ∧
    (∀ b ∈ into, segmentChunks b ≠ [] ∧
      (b.size ≤ 524288 →
        segmentChunks b =
          [{ offset := toUInt64 b.offset, length := b.size, buffer := b.data }]) ∧
      (∀ c ∈ segmentChunks b, b.data ≤ c.buffer ∧
        (c.offset : Int) = (b.offset + ((c.buffer : Int) - (b.data : Int))) % 2 ^ 64) ∧
      (0 ≤ b.offset → b.offset + b.size < 2 ^ 64 →
        ((toUInt64 b.offset : Nat) : Int) = b.offset ∧
        ∀ c ∈ segmentChunks b,
          (c.buffer : Int) = (b.data : Int) + ((c.offset : Int) - b.offset))) ∧
    (((into.map segmentChunks).flatten).map ChunkInfo.length).sum =
      (into.map IOPosBuffer.size).sum := by
  obtain ⟨rest, hrest⟩ := readv_calls st into ans hopen hcount
  rw [chunkList_eq] at hrest
  refine ⟨⟨rest, hrest⟩, ?_, ?_, ?_⟩
  · intro c hc
    rw [← chunkList_eq] at hc
    simpa [XRD_CL_MAX_CHUNK] using chunkList_le into c hc
  · intro b _
    refine ⟨?_, ?_, ?_, ?_⟩
    · intro hnil
      have hlen := splitSegment_length b.size b.offset b.data
      rw [segmentChunks] at hnil
      rw [hnil] at hlen
      simp only [List.length_nil] at hlen
      rcases Nat.eq_zero_or_pos b.size with h0 | hpos
      · rw [h0, splitSegment_small (by simp [XRD_CL_MAX_CHUNK])] at hnil
        simp at hnil
      · have := hlen hpos
        omega
    · intro hsmall
      exact splitSegment_small (by simpa [XRD_CL_MAX_CHUNK] using hsmall)
    · intro c hc
      obtain ⟨k, hk⟩ := List.mem_iff_getElem?.mp hc
      have hk' := splitSegment_getElem _ _ _ _ _ hk
      have h1 := hk'.1
      have h5 := hk'.2.2.2.2
      refine ⟨by omega, ?_⟩
      rw [h5, h1]
      push_cast
      congr 1
      omega
    · intro hpos hsum
      refine ⟨?_, ?_⟩
      · rw [toUInt64_cast]
        omega
      · intro c hc
        obtain ⟨k, hk⟩ := List.mem_iff_getElem?.mp hc
        have hk' := splitSegment_getElem _ _ _ _ _ hk
        have h1 := hk'.1
        have h2 := hk'.2.1
        have h5 := hk'.2.2.2.2
        rw [h5, h1]
        push_cast
        omega
  · rw [← chunkList_eq]
    exact chunkList_sum into

/-- The chunk list of the sample segments: two full chunks and a one-byte
remainder for the long segment, then the short segment as it is. -/
theorem chunkList_sample :
    chunkList sampleSegments =
      [{ offset := 100, length := 524288, buffer := 4096 },
       { offset := 524388, length := 524288, buffer := 528384 },
       { offset := 1048676, length := 1, buffer := 1052672 },
       { offset := 0, length := 10, buffer := 0 }] := by
  have e1 : splitSegment 100 4096 1048577 =
      [{ offset := 100, length := 524288, buffer := 4096 },
       { offset := 524388, length := 524288, buffer := 528384 },
       { offset := 1048676, length := 1, buffer := 1052672 }] := by
    rw [splitSegment_large (by decide), splitSegment_large (by decide),
      splitSegment_small (by decide)]
    simp [XRD_CL_MAX_CHUNK, toInt64, toUInt64]
  have e2 : splitSegment 0 0 10 = [{ offset := 0, length := 10, buffer := 0 }] := by
    rw [splitSegment_small (by decide)]
    simp [toUInt64]
  simp [sampleSegments, chunkList_eq, segmentChunks, e1, e2]

/-- Witness of C1 (amended) on the sample segments: the first segment (1 MiB + 1
byte at offset 100) is long. -/
theorem C1_readv_long_segment_split_witness :
    (sampleOpen.m_file = true ∧ 2 ≤ sampleSegments.length ∧
      sampleSegments[0]? = some { offset := 100, data := 4096, size := 1048577 } ∧
      524288 < 1048577) ∧
    (∃ rest : List EndpointCall,
      (XrdFile.readv sampleOpen sampleSegments sampleReadvAnswer).calls =
        EndpointCall.VectorRead
          (chunkList (sampleSegments.take 0) ++
            segmentChunks { offset := 100, data := 4096, size := 1048577 } ++
            chunkList (sampleSegments.drop (0 + 1))) :: rest) ∧
    (segmentChunks { offset := 100, data := 4096, size := 1048577 }).length =
      (1048577 + 524287) / 524288 ∧
    (segmentChunks { offset := 100, data := 4096, size := 1048577 }).head?.map
      ChunkInfo.offset = some (toUInt64 100) ∧
    ((segmentChunks { offset := 100, data := 4096, size := 1048577 }).map
      ChunkInfo.length).sum = 1048577 ∧
    ((toUInt64 100 : Nat) : Int) = 100 :=
  have h := C1_readv_long_segment_split sampleOpen sampleSegments sampleReadvAnswer rfl
    (by decide) 0 { offset := 100, data := 4096, size := 1048577 } rfl (by decide)
  ⟨⟨rfl, by decide, rfl, by decide⟩, h.1, h.2.1, h.2.2.1, h.2.2.2.2.1,
    (h.2.2.2.2.2 (by decide) (by decide)).1⟩

/-- Witness of C2 (amended) on the sample segments. -/
theorem C2_readv_chunk_list_witness :
    (sampleOpen.m_file = true ∧ 2 ≤ sampleSegments.length) ∧
    (∃ rest : List EndpointCall,
      (XrdFile.readv sampleOpen sampleSegments sampleReadvAnswer).calls =
        EndpointCall.VectorRead (sampleSegments.map segmentChunks).flatten :: rest) ∧
    (∀ c ∈ (sampleSegments.map segmentChunks).flatten, c.length ≤ 524288) ∧
    (((sampleSegments.map segmentChunks).flatten).map ChunkInfo.length).sum =
      (sampleSegments.map IOPosBuffer.size).sum :=
  have h := C2_readv_chunk_list sampleOpen sampleSegments sampleReadvAnswer rfl (by decide)
  ⟨⟨rfl, by decide⟩, h.1, h.2.1, h.2.2.2⟩

/-! ## Single calls on an open handle -/

/-- A cursor-relative write of at most `0x7fffffff` bytes that the endpoint
accepts, on an open handle with a known size. -/
theorem write_ok (st : XrdFile) (n : Nat) (hfile : st.m_file = true)
    (hsize : st.m_size ≠ -1) (hn : n ≤ 0x7fffffff) :
    (XrdFile.write st n true).outcome = .ok n ∧
    (XrdFile.write st n true).state.m_offset = toInt64 (st.m_offset + (n : Int)) ∧
    (XrdFile.write st n true).state.m_size = max st.m_size (toInt64 (st.m_offset + (n : Int))) ∧
    (XrdFile.write st n true).state.m_file = true ∧
    (XrdFile.write st n true).calls = [EndpointCall.Write st.m_offset n] := by
  have hn' : ¬ (0x7fffffff < n) := by omega
  simp only [XrdFile.write, hn', hfile, if_false, Bool.not_true, Bool.false_eq_true, hsize]
  by_cases h : st.m_size < toInt64 (st.m_offset + (n : Int))
  · simp [h, max_eq_right (le_of_lt h)]
  · simp [h, max_eq_left (not_lt.mp h)]

/-- What a successful `open` leaves behind. -/
theorem open_ok_state (st : XrdFile) (name : Option String) (flags : Finset IOFlag)
    (perms : Nat) (ans : OpenAnswer)
    (hok : (XrdFile.open st name flags perms ans).outcome = .ok ()) :
    ∃ size, ans.statInfo = some size ∧
      (XrdFile.open st name flags perms ans).state.m_file = true ∧
      (XrdFile.open st name flags perms ans).state.m_offset = 0 ∧
      (XrdFile.open st name flags perms ans).state.m_size = toInt64 size ∧
      (XrdFile.open st name flags perms ans).state.m_close = true := by
  unfold XrdFile.open at hok ⊢
  cases name with
  | none => simp at hok
  | some nm =>
    simp only at hok ⊢
    split_ifs at hok ⊢
    cases hinfo : ans.statInfo with
    | none => simp [hinfo] at hok
    | some size => exact ⟨size, rfl, by simp⟩

/-- A run of accepted writes from an open handle whose size is known and which,
if the size is negative, still has its cursor at 0: all calls return, and the
cursor is the 64-bit sum of the start and the lengths. -/
theorem writeSeq_spec (ns : List Nat) : ∀ st : XrdFile, st.m_file = true →
    (0 ≤ st.m_size ∨ (st.m_size < -1 ∧ st.m_offset = 0)) →
    (∀ m ∈ ns, m ≤ 0x7fffffff) →
    ∃ st1, XrdFile.writeSeq st ns = some st1 ∧ st1.m_file = true ∧
      (0 ≤ st1.m_size ∨ (st1.m_size < -1 ∧ st1.m_offset = 0)) ∧
      st1.m_offset = (if ns = [] then st.m_offset else toInt64 (st.m_offset + (ns.sum : Nat))) := by
  induction ns with
  | nil => intro st hf hs _; exact ⟨st, rfl, hf, hs, by simp⟩
  | cons n ns ih =>
    intro st hf hs hns
    have hn : n ≤ 0x7fffffff := hns n (List.mem_cons_self _ _)
    obtain ⟨h1, h2, h3, h4, _⟩ := write_ok st n hf (by omega) hn
    have hs1 : 0 ≤ (XrdFile.write st n true).state.m_size := by
      rw [h3]
      rcases hs with hs | ⟨_, h0⟩
      · exact le_max_of_le_left hs
      · apply le_max_of_le_right
        rw [h0, zero_add, toInt64_of_inInt64 (by unfold InInt64; omega)]
        omega
    obtain ⟨st1, e1, e2, e3, e4⟩ := ih (XrdFile.write st n true).state h4 (Or.inl hs1)
      (fun m hm => hns m (List.mem_cons_of_mem _ hm))
    refine ⟨st1, ?_, e2, e3, ?_⟩
    · simp only [XrdFile.writeSeq, h1]
      exact e1
    · rw [e4, h2]
      simp only [List.cons_ne_nil, if_false, List.sum_cons]
      split_ifs with hnil
      · subst hnil; simp
      · rw [toInt64_toInt64_add]
        push_cast
        rw [add_assoc]

/-! ## C3: sequences of cursor-relative writes -/

/-- C3 (as stated, refuted): when the endpoint reports the size `2^64 - 1`, the
freshly opened handle has `cached_size = -1` and the first accepted write stops
at `assert (m_size != -1)` instead of returning `n`; and on a handle freshly
opened on a 1000-byte file, after `2^32 + 2` accepted writes of `0x7fffffff`
bytes the cursor is `2^63 - 2` and one more such write leaves it negative, not
at `cursor_before + n`. -/
theorem C3_counterexample :
    ((XrdFile.open XrdFile.new (some "data.root") {IOFlag.OpenWrite} 438
        sentinelStatAnswer).outcome = .ok () ∧
      (XrdFile.open XrdFile.new (some "data.root") {IOFlag.OpenWrite} 438
        sentinelStatAnswer).state.m_size = -1 ∧
      (XrdFile.write (XrdFile.open XrdFile.new (some "data.root") {IOFlag.OpenWrite} 438
        sentinelStatAnswer).state 1 true).outcome = .crash .assertFailed) ∧
    ((XrdFile.open XrdFile.new (some "data.root") {IOFlag.OpenWrite} 438
        sampleOpenAnswer).outcome = .ok () ∧
      (XrdFile.open XrdFile.new (some "data.root") {IOFlag.OpenWrite} 438
        sampleOpenAnswer).state = sampleOpen ∧
      ∃ st, XrdFile.writeSeq sampleOpen (List.replicate (2 ^ 32 + 2) 0x7fffffff) = some st ∧
        st.m_offset = 2 ^ 63 - 2 ∧
        (XrdFile.write st 0x7fffffff true).outcome = .ok 0x7fffffff ∧
        (XrdFile.write st 0x7fffffff true).state.m_offset = -(2 ^ 63) + 2 ^ 31 - 3 ∧
        (XrdFile.write st 0x7fffffff true).state.m_offset ≠ st.m_offset + 0x7fffffff) := by
  refine ⟨by decide, by decide, by decide, ?_⟩
  have hmem : ∀ m ∈ List.replicate (2 ^ 32 + 2) 0x7fffffff, m ≤ 0x7fffffff := by
    intro m hm
    rw [List.eq_of_mem_replicate hm]
  obtain ⟨st, e1, e2, e3, e4⟩ := writeSeq_spec _ sampleOpen rfl (Or.inl (by decide)) hmem
  have hne : List.replicate (2 ^ 32 + 2) 0x7fffffff ≠ [] := by
    intro h
    have hl := congrArg List.length h
    rw [List.length_replicate, List.length_nil] at hl
    omega
  have hcur : st.m_offset = 2 ^ 63 - 2 := by
    rw [e4, if_neg hne, List.sum_replicate]
    simp [sampleOpen, toInt64]
  have hsz : st.m_size ≠ -1 := by
    rcases e3 with h | ⟨h, _⟩ <;> omega
  obtain ⟨h1, h2, _, _, _⟩ := write_ok st 0x7fffffff e2 hsz (by decide)
  have hnew : (XrdFile.write st 0x7fffffff true).state.m_offset = -(2 ^ 63) + 2 ^ 31 - 3 := by
    rw [h2, hcur]
    simp [toInt64]
  refine ⟨st, e1, hcur, h1, hnew, ?_⟩
  rw [hnew, hcur]
  norm_num

/-- C3 (amended): take a freshly opened handle (any successful `open`) whose
`cached_size` is known, that is, not -1 (the endpoint did not report the size
`2^64 - 1`), and any sequence of cursor-relative writes `ns`, then one more
write of `n` bytes, every length at most `0x7fffffff` and every endpoint `Write`
succeeding.  All earlier calls return, leaving a state `st`, and the last call
returns `n`, sets the cursor to `cursor_before + n` and `cached_size` to
`max (previous cached_size) (cursor_before + n)`, where `cursor_before + n` is
reduced modulo `2^64` into the signed 64-bit range; it is the exact sum, and the
cursor is the total number of bytes written, as long as that total stays below
`2^63`. -/
theorem C3_write_sequence (st0 : XrdFile) (name : Option String) (flags : Finset IOFlag)
    (perms : Nat) (ans : OpenAnswer)
    (hopen : (XrdFile.open st0 name flags perms ans).outcome = .ok ())
    (hknown : (XrdFile.open st0 name flags perms ans).state.m_size ≠ -1)
    (ns : List Nat) (n : Nat) (hns : ∀ m ∈ ns, m ≤ 0x7fffffff) (hn : n ≤ 0x7fffffff) :
    ∃ st, XrdFile.writeSeq (XrdFile.open st0 name flags perms ans).state ns = some st ∧
      (XrdFile.write st n true).outcome = .ok n ∧
      (XrdFile.write st n true).state.m_offset = toInt64 (st.m_offset + (n : Int)) ∧
      (XrdFile.write st n true).state.m_size =
        max st.m_size (toInt64 (st.m_offset + (n : Int))) ∧
      (ns.sum + n < 2 ^ 63 →
        st.m_offset = (ns.sum : Nat) ∧
        (XrdFile.write st n true).state.m_offset = st.m_offset + (n : Int) ∧
        (XrdFile.write st n true).state.m_size = max st.m_size (st.m_offset + (n : Int))) := by
  obtain ⟨size1, _, hf, ho, _, _⟩ := open_ok_state st0 name flags perms ans hopen
  have hinv : 0 ≤ (XrdFile.open st0 name flags perms ans).state.m_size ∨
      ((XrdFile.open st0 name flags perms ans).state.m_size < -1 ∧
        (XrdFile.open st0 name flags perms ans).state.m_offset = 0) := by
    by_cases h : 0 ≤ (XrdFile.open st0 name flags perms ans).state.m_size
    · exact Or.inl h
    · exact Or.inr ⟨by omega, ho⟩
  obtain ⟨st, e1, e2, e3, e4⟩ := writeSeq_spec ns _ hf hinv hns
  have hsz : st.m_size ≠ -1 := by
    rcases e3 with h | ⟨h, _⟩ <;> omega
  obtain ⟨h1, h2, h3, _, _⟩ := write_ok st n e2 hsz hn
  refine ⟨st, e1, h1, h2, h3, ?_⟩
  intro hsum
  have hcur : st.m_offset = (ns.sum : Nat) := by
    rw [e4, ho]
    split_ifs with hnil
    · subst hnil; simp
    · rw [zero_add, toInt64_of_inInt64 (by unfold InInt64; omega)]
  have hplain : toInt64 (st.m_offset + (n : Int)) = st.m_offset + (n : Int) := by
    rw [hcur]
    exact toInt64_of_inInt64 (by unfold InInt64; omega)
  exact ⟨hcur, by rw [h2, hplain], by rw [h3, hplain]⟩

/-- Witness of C3 (amended): three writes of 10, 20 and 30 bytes, then one of 40
bytes, after opening a file of 1000 bytes on a new handle. -/
theorem C3_write_sequence_witness :
    ∃ st, XrdFile.writeSeq
        (XrdFile.open XrdFile.new (some "data.root") {IOFlag.OpenWrite} 438
          sampleOpenAnswer).state [10, 20, 30] = some st ∧
      (XrdFile.write st 40 true).outcome = .ok 40 ∧
      (XrdFile.write st 40 true).state.m_offset = toInt64 (st.m_offset + ((40 : Nat) : Int)) ∧
      (XrdFile.write st 40 true).state.m_size =
        max st.m_size (toInt64 (st.m_offset + ((40 : Nat) : Int))) ∧
      ([10, 20, 30].sum + 40 < 2 ^ 63 →
        st.m_offset = (([10, 20, 30] : List Nat).sum : Nat) ∧
        (XrdFile.write st 40 true).state.m_offset = st.m_offset + ((40 : Nat) : Int) ∧
        (XrdFile.write st 40 true).state.m_size = max st.m_size (st.m_offset + ((40 : Nat) : Int))) :=
  C3_write_sequence XrdFile.new (some "data.root") {IOFlag.OpenWrite} 438 sampleOpenAnswer
    (by decide) (by decide) [10, 20, 30] 40 (by decide) (by decide)

/-! ## C4: positioning on an open handle -/

/-- The value `t` that the `switch` of `position` stores in the cursor. -/
theorem positionTail_spec (st : XrdFile) (hsize : st.m_size ≠ -1) :
    (XrdFile.positionTail st).outcome = .ok (max 0 st.m_offset) ∧
    (XrdFile.positionTail st).state.m_offset = max 0 st.m_offset ∧
    (XrdFile.positionTail st).state.m_size = max st.m_size (max 0 st.m_offset) ∧
    (XrdFile.positionTail st).state.m_file = st.m_file ∧
    (XrdFile.positionTail st).state.m_close = st.m_close ∧
    (XrdFile.positionTail st).calls = [] := by
  unfold XrdFile.positionTail
  by_cases h0 : st.m_offset < 0
  · have hmax : max 0 st.m_offset = 0 := max_eq_left (le_of_lt h0)
    simp only [h0, if_true, hsize, if_false, hmax]
    by_cases h1 : st.m_size < 0
    · simp [h1, max_eq_right (le_of_lt h1)]
    · simp [h1, max_eq_left (not_lt.mp h1)]
  · have hmax : max 0 st.m_offset = st.m_offset := max_eq_right (not_lt.mp h0)
    simp only [h0, if_false, hsize, hmax]
    by_cases h1 : st.m_size < st.m_offset
    · simp [h1, max_eq_right (le_of_lt h1)]
    · simp [h1, max_eq_left (not_lt.mp h1)]

/-- C4 (as stated, refuted): the calls `lastOffsetCalls` (open, seek to
`2^63 - 1`) leave an open handle with cursor `2^63 - 1`; there
`position (1, CURRENT)` returns 0 and sets the cursor to 0, not to
`max 0 (cursor + 1)`. -/
theorem C4_counterexample :
    runCalls (fun _ c => c.wellTyped) XrdFile.new lastOffsetCalls = some lastOffsetState ∧
    lastOffsetState.m_file = true ∧ lastOffsetState.m_size ≠ -1 ∧
    (XrdFile.position lastOffsetState 1 .CURRENT).outcome = .ok 0 ∧
    (XrdFile.position lastOffsetState 1 .CURRENT).state.m_offset = 0 ∧
    (0 : Int) ≠ max 0 (lastOffsetState.m_offset + 1) := by
  decide

/-- C4 (amended): on an open handle (session present, `cached_size` known), for
every offset and `whence` in SET, CURRENT, END, `position` computes `t = offset`,
`cursor + offset` or `cached_size + offset`, the sum being reduced modulo `2^64`
into the signed 64-bit range (it is the exact sum whenever that fits a signed
64-bit integer), sets the cursor to `max 0 t` however negative `t` is, sets
`cached_size` to `max (previous cached_size) (new cursor)`, returns the new
cursor, and makes no endpoint call. -/
theorem C4_position_open (st : XrdFile) (offset : Int) (whence : Relative)
    (hfile : st.m_file = true) (hsize : st.m_size ≠ -1)
    (hwhence : whence = .SET ∨ whence = .CURRENT ∨ whence = .END) :
    ∃ t : Int,
      (whence = .SET → t = offset) ∧
      (whence = .CURRENT → t = toInt64 (st.m_offset + offset) ∧
        (InInt64 (st.m_offset + offset) → t = st.m_offset + offset)) ∧
      (whence = .END → t = toInt64 (st.m_size + offset) ∧
        (InInt64 (st.m_size + offset) → t = st.m_size + offset)) ∧
      (XrdFile.position st offset whence).outcome = .ok (max 0 t) ∧
      (XrdFile.position st offset whence).state.m_offset = max 0 t ∧
      (XrdFile.position st offset whence).state.m_size = max st.m_size (max 0 t) ∧
      (XrdFile.position st offset whence).state.m_file = true ∧
      (XrdFile.position st offset whence).calls = [] := by
  have hne : (!st.m_file) = false := by simp [hfile]
  rcases hwhence with rfl | rfl | rfl
  · obtain ⟨h1, h2, h3, h4, _, h6⟩ :=
      positionTail_spec { st with m_offset := offset } hsize
    refine ⟨offset, fun _ => rfl, (fun h => by cases h), (fun h => by cases h), ?_⟩
    simp only [XrdFile.position, hne, Bool.false_eq_true, if_false]
    exact ⟨h1, h2, h3, h4.trans hfile, h6⟩
  · obtain ⟨h1, h2, h3, h4, _, h6⟩ :=
      positionTail_spec { st with m_offset := toInt64 (st.m_offset + offset) } hsize
    refine ⟨toInt64 (st.m_offset + offset), (fun h => by cases h),
      fun _ => ⟨rfl, fun hin => toInt64_of_inInt64 hin⟩, (fun h => by cases h), ?_⟩
    simp only [XrdFile.position, hne, Bool.false_eq_true, if_false]
    exact ⟨h1, h2, h3, h4.trans hfile, h6⟩
  · obtain ⟨h1, h2, h3, h4, _, h6⟩ :=
      positionTail_spec { st with m_offset := toInt64 (st.m_size + offset) } hsize
    refine ⟨toInt64 (st.m_size + offset), (fun h => by cases h), (fun h => by cases h),
      fun _ => ⟨rfl, fun hin => toInt64_of_inInt64 hin⟩, ?_⟩
    simp only [XrdFile.position, hne, Bool.false_eq_true, if_false, hsize]
    exact ⟨h1, h2, h3, h4.trans hfile, h6⟩

/-- Witness of C4 (amended): seeking to 5000 bytes before the end of a 1000-byte
file. -/
theorem C4_position_open_witness :
    ∃ t : Int,
      (Relative.END = .SET → t = -5000) ∧
      (Relative.END = .CURRENT → t = toInt64 (sampleOpen.m_offset + -5000) ∧
        (InInt64 (sampleOpen.m_offset + -5000) → t = sampleOpen.m_offset + -5000)) ∧
      (Relative.END = .END → t = toInt64 (sampleOpen.m_size + -5000) ∧
        (InInt64 (sampleOpen.m_size + -5000) → t = sampleOpen.m_size + -5000)) ∧
      (XrdFile.position sampleOpen (-5000) .END).outcome = .ok (max 0 t) ∧
      (XrdFile.position sampleOpen (-5000) .END).state.m_offset = max 0 t ∧
      (XrdFile.position sampleOpen (-5000) .END).state.m_size = max sampleOpen.m_size (max 0 t) ∧
      (XrdFile.position sampleOpen (-5000) .END).state.m_file = true ∧
      (XrdFile.position sampleOpen (-5000) .END).calls = [] :=
  C4_position_open sampleOpen (-5000) .END rfl (by decide) (Or.inr (Or.inr rfl))

/-! ## C5: the session / cached-size invariant -/

/-- C5 (evaluation of the code): a new handle whose `open` fails in the
endpoint's `Open` throws `FileOpenError` and is left with a session object
(`m_file` non-null) while `cached_size` is still the unknown sentinel -1; a
following `position` passes the "closed file" test and stops at
`assert (m_size != -1)`. -/
theorem C5_failed_open_breaks_invariant :
    (XrdFile.open XrdFile.new (some "data.root") {IOFlag.OpenRead} 438
        failingOpenAnswer).outcome = .thrown .FileOpenError ∧
    (XrdFile.open XrdFile.new (some "data.root") {IOFlag.OpenRead} 438
        failingOpenAnswer).state.m_file = true ∧
    (XrdFile.open XrdFile.new (some "data.root") {IOFlag.OpenRead} 438
        failingOpenAnswer).state.m_size = -1 ∧
    (XrdFile.position
        (XrdFile.open XrdFile.new (some "data.root") {IOFlag.OpenRead} 438
          failingOpenAnswer).state 0 .SET).outcome = .crash .assertFailed := by
  decide

/-! ## C6: flag sets that `open` rejects -/

/-- C6: for a non-empty name and a flag set that has neither OpenRead nor
OpenWrite, or that has OpenAppend, `open` throws `FileOpenError`; the endpoint's
`Open` is never called, no `XrdCl::File` object is constructed, and if the
handle holds a session object afterwards it is the one it held before, the
handle being unchanged. -/
theorem C6_open_rejected_flags (st : XrdFile) (nm : String) (flags : Finset IOFlag)
    (perms : Nat) (ans : OpenAnswer) (hname : nm ≠ "")
    (hflags : (IOFlag.OpenRead ∉ flags ∧ IOFlag.OpenWrite ∉ flags) ∨ IOFlag.OpenAppend ∈ flags) :
    (XrdFile.open st (some nm) flags perms ans).outcome = .thrown .FileOpenError ∧
    (∀ name mode p,
      EndpointCall.Open name mode p ∉ (XrdFile.open st (some nm) flags perms ans).calls) ∧
    EndpointCall.construct ∉ (XrdFile.open st (some nm) flags perms ans).calls ∧
    ((XrdFile.open st (some nm) flags perms ans).state.m_file = true →
      (XrdFile.open st (some nm) flags perms ans).state = st) := by
  by_cases hrw : IOFlag.OpenRead ∉ flags ∧ IOFlag.OpenWrite ∉ flags
  · simp [XrdFile.open, hname, hrw]
  · have happ : IOFlag.OpenAppend ∈ flags := by tauto
    simp only [XrdFile.open, hname, hrw, happ, if_false, if_true]
    refine ⟨trivial, ?_, ?_, ?_⟩
    all_goals
      unfold XrdFile.closeOld XrdFile.close XrdFile.abort
      cases st.m_file <;> cases st.m_close <;> simp

/-- Witness of C6: opening with OpenRead and OpenAppend on an open handle. -/
theorem C6_open_rejected_flags_witness :
    (XrdFile.open sampleOpen (some "data.root") {IOFlag.OpenRead, IOFlag.OpenAppend} 438
      sampleOpenAnswer).outcome = .thrown .FileOpenError ∧
    (∀ name mode p,
      EndpointCall.Open name mode p ∉
        (XrdFile.open sampleOpen (some "data.root") {IOFlag.OpenRead, IOFlag.OpenAppend} 438
          sampleOpenAnswer).calls) ∧
    EndpointCall.construct ∉
      (XrdFile.open sampleOpen (some "data.root") {IOFlag.OpenRead, IOFlag.OpenAppend} 438
        sampleOpenAnswer).calls ∧
    ((XrdFile.open sampleOpen (some "data.root") {IOFlag.OpenRead, IOFlag.OpenAppend} 438
        sampleOpenAnswer).state.m_file = true →
      (XrdFile.open sampleOpen (some "data.root") {IOFlag.OpenRead, IOFlag.OpenAppend} 438
        sampleOpenAnswer).state = sampleOpen) :=
  C6_open_rejected_flags sampleOpen "data.root" {IOFlag.OpenRead, IOFlag.OpenAppend} 438
    sampleOpenAnswer (by decide) (Or.inr (by decide))

/-! ## C7: a successful open -/

/-- C7 (as stated, refuted): when the endpoint reports the size `2^63`, `open`
succeeds with `cached_size = -2^63`, not `2^63`, and `position (0, END)` returns
0; when it reports `2^64 - 1`, `open` succeeds with `cached_size = -1` and
`position (0, END)` stops at `assert (m_size != -1)`. -/
theorem C7_counterexample :
    (XrdFile.open XrdFile.new (some "data.root") {IOFlag.OpenRead} 438
      halfStatAnswer).outcome = .ok () ∧
    (XrdFile.open XrdFile.new (some "data.root") {IOFlag.OpenRead} 438
      halfStatAnswer).state.m_size = -(2 ^ 63) ∧
    (XrdFile.open XrdFile.new (some "data.root") {IOFlag.OpenRead} 438
      halfStatAnswer).state.m_size ≠ ((2 ^ 63 : Nat) : Int) ∧
    (XrdFile.position (XrdFile.open XrdFile.new (some "data.root") {IOFlag.OpenRead} 438
      halfStatAnswer).state 0 .END).outcome = .ok 0 ∧
    (XrdFile.open XrdFile.new (some "data.root") {IOFlag.OpenRead} 438
      sentinelStatAnswer).outcome = .ok () ∧
    (XrdFile.open XrdFile.new (some "data.root") {IOFlag.OpenRead} 438
      sentinelStatAnswer).state.m_size = -1 ∧
    (XrdFile.position (XrdFile.open XrdFile.new (some "data.root") {IOFlag.OpenRead} 438
      sentinelStatAnswer).state 0 .END).outcome = .crash .assertFailed := by
  decide

/-- C7 (amended): for a non-empty name and accepted flags (OpenRead or
OpenWrite, no OpenAppend), when the endpoint's `Open` and forced `Stat` succeed
with a reported size `s ≤ 2^63 - 1` (a size that fits the signed 64-bit
`cached_size`), `open` returns normally and leaves a session, cursor 0,
`cached_size = s` and the ownership flag true; an immediately following
`position (0, END)` returns `s`. -/
theorem C7_open_success (st : XrdFile) (nm : String) (flags : Finset IOFlag)
    (perms : Nat) (ans : OpenAnswer) (s : Nat) (hname : nm ≠ "")
    (hrw : IOFlag.OpenRead ∈ flags ∨ IOFlag.OpenWrite ∈ flags)
    (happ : IOFlag.OpenAppend ∉ flags)
    (hopen : ans.openOk = true) (hstat : ans.statOk = true)
    (hinfo : ans.statInfo = some s) (hs : s < 2 ^ 63) :
    (XrdFile.open st (some nm) flags perms ans).outcome = .ok () ∧
    (XrdFile.open st (some nm) flags perms ans).state.m_file = true ∧
    (XrdFile.open st (some nm) flags perms ans).state.m_offset = 0 ∧
    (XrdFile.open st (some nm) flags perms ans).state.m_size = (s : Int) ∧
    (XrdFile.open st (some nm) flags perms ans).state.m_close = true ∧
    (XrdFile.position (XrdFile.open st (some nm) flags perms ans).state 0 .END).outcome =
      .ok (s : Int) := by
  have hrw' : ¬ (IOFlag.OpenRead ∉ flags ∧ IOFlag.OpenWrite ∉ flags) := by tauto
  have hconv : toInt64 (s : Int) = (s : Int) := toInt64_of_inInt64 (by unfold InInt64; omega)
  have hne : ((s : Int) = -1) = False := by
    apply eq_false
    omega
  have hlt : ¬ ((s : Int) < 0) := by omega
  simp [XrdFile.open, XrdFile.position, XrdFile.positionTail, hname, hrw', happ, hopen,
    hstat, hinfo, hconv, hne, hlt]

/-- Witness of C7 (amended): opening a 1000-byte file for reading on a new
handle. -/
theorem C7_open_success_witness :
    (XrdFile.open XrdFile.new (some "data.root") {IOFlag.OpenRead} 438
      sampleOpenAnswer).outcome = .ok () ∧
    (XrdFile.open XrdFile.new (some "data.root") {IOFlag.OpenRead} 438
      sampleOpenAnswer).state.m_file = true ∧
    (XrdFile.open XrdFile.new (some "data.root") {IOFlag.OpenRead} 438
      sampleOpenAnswer).state.m_offset = 0 ∧
    (XrdFile.open XrdFile.new (some "data.root") {IOFlag.OpenRead} 438
      sampleOpenAnswer).state.m_size = ((1000 : Nat) : Int) ∧
    (XrdFile.open XrdFile.new (some "data.root") {IOFlag.OpenRead} 438
      sampleOpenAnswer).state.m_close = true ∧
    (XrdFile.position (XrdFile.open XrdFile.new (some "data.root") {IOFlag.OpenRead} 438
      sampleOpenAnswer).state 0 .END).outcome = .ok ((1000 : Nat) : Int) :=
  C7_open_success XrdFile.new "data.root" {IOFlag.OpenRead} 438 sampleOpenAnswer 1000
    (by decide) (Or.inl (by decide)) (by decide) rfl rfl rfl (by norm_num)

/-! ## C8: calls on a handle without a session -/

/-- C8 (evaluation of the code): on a handle without a session (new, or closed
after use) both `read` overloads and both `write` overloads dereference the
null session pointer instead of raising a "not open" error; only `position`
raises `FilePositionError`. -/
theorem C8_read_write_without_session :
    (XrdFile.read XrdFile.new 100 { ok := true, bytesRead := 100 }).outcome =
      .crash .nullDereference ∧
    (XrdFile.readPos XrdFile.new 100 0 { ok := true, bytesRead := 100 }).outcome =
      .crash .nullDereference ∧
    (XrdFile.write XrdFile.new 100 true).outcome = .crash .nullDereference ∧
    (XrdFile.writePos XrdFile.new 100 0 true).outcome = .crash .nullDereference ∧
    (XrdFile.close sampleOpen true).state.m_file = false ∧
    (XrdFile.read (XrdFile.close sampleOpen true).state 100
      { ok := true, bytesRead := 100 }).outcome = .crash .nullDereference ∧
    (XrdFile.position XrdFile.new 0 .SET).outcome = .thrown .FilePositionError ∧
    (XrdFile.position XrdFile.new 0 .SET).calls = [] := by
  decide

/-! ## C9: the mode bits handed to `Open` -/

/-- The bits of the translated mode word. -/
theorem translateFlags_mem (flags : Finset IOFlag) (f : OpenFlag) :
    f ∈ XrdFile.translateFlags flags ↔
      (f = .Update ∧ IOFlag.OpenWrite ∈ flags) ∨
      (f = .Read ∧ IOFlag.OpenWrite ∉ flags ∧ IOFlag.OpenRead ∈ flags) ∨
      ((f = .New ∨ f = .MakePath) ∧ IOFlag.OpenCreate ∈ flags) ∨
      (f = .Delete ∧ ((IOFlag.OpenCreate ∈ flags ∧ IOFlag.OpenExclusive ∉ flags) ∨
        (IOFlag.OpenTruncate ∈ flags ∧ IOFlag.OpenWrite ∈ flags))) := by
  unfold XrdFile.translateFlags
  by_cases hw : IOFlag.OpenWrite ∈ flags <;> by_cases hr : IOFlag.OpenRead ∈ flags <;>
    by_cases hc : IOFlag.OpenCreate ∈ flags <;> by_cases hx : IOFlag.OpenExclusive ∈ flags <;>
    by_cases ht : IOFlag.OpenTruncate ∈ flags <;>
    simp only [hw, hr, hc, hx, ht, if_true, if_false, not_true_eq_false, not_false_eq_true,
      and_true, and_false, true_and, false_and, or_false, false_or, or_true, true_or,
      Finset.mem_insert, Finset.not_mem_empty, and_self] <;>
    cases f <;> simp

/-- C9: for a non-empty name and accepted flags (OpenRead or OpenWrite, no
OpenAppend), `open` calls the endpoint's `Open` exactly once, with the given
name and permissions and with a mode word whose bits are exactly: Update if
OpenWrite is set, otherwise Read; New and MakePath iff OpenCreate is set;
Delete iff (OpenCreate and not OpenExclusive) or (OpenTruncate and
OpenWrite); no other bit. -/
theorem C9_open_mode_bits (st : XrdFile) (nm : String) (flags : Finset IOFlag)
    (perms : Nat) (ans : OpenAnswer) (hname : nm ≠ "")
    (hrw : IOFlag.OpenRead ∈ flags ∨ IOFlag.OpenWrite ∈ flags)
    (happ : IOFlag.OpenAppend ∉ flags) :
    ∃ (pre post : List EndpointCall) (mode : Finset OpenFlag),
      (XrdFile.open st (some nm) flags perms ans).calls =
        pre ++ EndpointCall.Open nm mode perms :: post ∧
      (∀ name m p, EndpointCall.Open name m p ∉ pre ∧ EndpointCall.Open name m p ∉ post) ∧
      ∀ f : OpenFlag, f ∈ mode ↔
        (f = .Update ∧ IOFlag.OpenWrite ∈ flags) ∨
        (f = .Read ∧ IOFlag.OpenWrite ∉ flags) ∨
        ((f = .New ∨ f = .MakePath) ∧ IOFlag.OpenCreate ∈ flags) ∨
        (f = .Delete ∧ ((IOFlag.OpenCreate ∈ flags ∧ IOFlag.OpenExclusive ∉ flags) ∨
          (IOFlag.OpenTruncate ∈ flags ∧ IOFlag.OpenWrite ∈ flags))) := by
  have hrw' : ¬ (IOFlag.OpenRead ∉ flags ∧ IOFlag.OpenWrite ∉ flags) := by tauto
  have hmode : ∀ f : OpenFlag, f ∈ XrdFile.translateFlags flags ↔
      (f = .Update ∧ IOFlag.OpenWrite ∈ flags) ∨
      (f = .Read ∧ IOFlag.OpenWrite ∉ flags) ∨
      ((f = .New ∨ f = .MakePath) ∧ IOFlag.OpenCreate ∈ flags) ∨
      (f = .Delete ∧ ((IOFlag.OpenCreate ∈ flags ∧ IOFlag.OpenExclusive ∉ flags) ∨
        (IOFlag.OpenTruncate ∈ flags ∧ IOFlag.OpenWrite ∈ flags))) := by
    intro f
    rw [translateFlags_mem]
    constructor
    · rintro (h | h | h | h)
      · exact Or.inl h
      · exact Or.inr (Or.inl ⟨h.1, h.2.1⟩)
      · exact Or.inr (Or.inr (Or.inl h))
      · exact Or.inr (Or.inr (Or.inr h))
    · rintro (h | h | h | h)
      · exact Or.inl h
      · exact Or.inr (Or.inl ⟨h.1, h.2, by tauto⟩)
      · exact Or.inr (Or.inr (Or.inl h))
      · exact Or.inr (Or.inr (Or.inr h))
  have hpre : ∀ name m p,
      EndpointCall.Open name m p ∉ (XrdFile.closeOld st ans.closeOk).calls := by
    intro name m p
    unfold XrdFile.closeOld XrdFile.close XrdFile.abort
    cases st.m_file <;> cases st.m_close <;> simp
  simp only [XrdFile.open, hname, hrw', happ, if_false]
  cases ans.openOk with
  | false =>
    refine ⟨(XrdFile.closeOld st ans.closeOk).calls ++ [EndpointCall.construct], [EndpointCall.GetDataServer],
      XrdFile.translateFlags flags, by simp [addConnection], fun name m p => ⟨by simp [hpre name m p], by simp⟩,
      hmode⟩
  | true =>
    cases ans.statOk with
    | false =>
      refine ⟨(XrdFile.closeOld st ans.closeOk).calls ++ [EndpointCall.construct],
        [EndpointCall.Stat true, EndpointCall.GetDataServer],
        XrdFile.translateFlags flags, by simp [addConnection],
        fun name m p => ⟨by simp [hpre name m p], by simp⟩, hmode⟩
    | true =>
      cases ans.statInfo with
      | none =>
        refine ⟨(XrdFile.closeOld st ans.closeOk).calls ++ [EndpointCall.construct], [EndpointCall.Stat true],
          XrdFile.translateFlags flags, by simp,
          fun name m p => ⟨by simp [hpre name m p], by simp⟩, hmode⟩
      | some size =>
        refine ⟨(XrdFile.closeOld st ans.closeOk).calls ++ [EndpointCall.construct],
          [EndpointCall.Stat true, EndpointCall.GetDataServer],
          XrdFile.translateFlags flags, by simp,
          fun name m p => ⟨by simp [hpre name m p], by simp⟩, hmode⟩

/-- Witness of C9: opening for read and write with create and truncate. -/
theorem C9_open_mode_bits_witness :
    ∃ (pre post : List EndpointCall) (mode : Finset OpenFlag),
      (XrdFile.open sampleOpen (some "data.root")
        {IOFlag.OpenRead, IOFlag.OpenWrite, IOFlag.OpenCreate, IOFlag.OpenTruncate} 438
        sampleOpenAnswer).calls = pre ++ EndpointCall.Open "data.root" mode 438 :: post ∧
      (∀ name m p, EndpointCall.Open name m p ∉ pre ∧ EndpointCall.Open name m p ∉ post) ∧
      ∀ f : OpenFlag, f ∈ mode ↔
        (f = .Update ∧ IOFlag.OpenWrite ∈
          ({IOFlag.OpenRead, IOFlag.OpenWrite, IOFlag.OpenCreate, IOFlag.OpenTruncate} :
            Finset IOFlag)) ∨
        (f = .Read ∧ IOFlag.OpenWrite ∉
          ({IOFlag.OpenRead, IOFlag.OpenWrite, IOFlag.OpenCreate, IOFlag.OpenTruncate} :
            Finset IOFlag)) ∨
        ((f = .New ∨ f = .MakePath) ∧ IOFlag.OpenCreate ∈
          ({IOFlag.OpenRead, IOFlag.OpenWrite, IOFlag.OpenCreate, IOFlag.OpenTruncate} :
            Finset IOFlag)) ∨
        (f = .Delete ∧ ((IOFlag.OpenCreate ∈
          ({IOFlag.OpenRead, IOFlag.OpenWrite, IOFlag.OpenCreate, IOFlag.OpenTruncate} :
            Finset IOFlag) ∧ IOFlag.OpenExclusive ∉
          ({IOFlag.OpenRead, IOFlag.OpenWrite, IOFlag.OpenCreate, IOFlag.OpenTruncate} :
            Finset IOFlag)) ∨
          (IOFlag.OpenTruncate ∈
          ({IOFlag.OpenRead, IOFlag.OpenWrite, IOFlag.OpenCreate, IOFlag.OpenTruncate} :
            Finset IOFlag) ∧ IOFlag.OpenWrite ∈
          ({IOFlag.OpenRead, IOFlag.OpenWrite, IOFlag.OpenCreate, IOFlag.OpenTruncate} :
            Finset IOFlag)))) :=
  C9_open_mode_bits sampleOpen "data.root"
    {IOFlag.OpenRead, IOFlag.OpenWrite, IOFlag.OpenCreate, IOFlag.OpenTruncate} 438
    sampleOpenAnswer (by decide) (Or.inl (by decide)) (by decide)

/-! ## C10: create -/

/-- An exclusive `create` is `open` with the four flags. -/
theorem create_exclusive (st : XrdFile) (name : Option String) (perms : Nat)
    (ans : OpenAnswer) :
    XrdFile.create st name true perms ans =
      XrdFile.open st name
        {IOFlag.OpenCreate, IOFlag.OpenWrite, IOFlag.OpenTruncate, IOFlag.OpenExclusive}
        perms ans := by
  have e : ({IOFlag.OpenCreate, IOFlag.OpenWrite, IOFlag.OpenTruncate} ∪
      (if true = true then {IOFlag.OpenExclusive} else ∅) : Finset IOFlag) =
      {IOFlag.OpenCreate, IOFlag.OpenWrite, IOFlag.OpenTruncate, IOFlag.OpenExclusive} := by
    decide
  unfold XrdFile.create
  rw [e]

/-- A non-exclusive `create` is `open` with the three flags. -/
theorem create_plain (st : XrdFile) (name : Option String) (perms : Nat)
    (ans : OpenAnswer) :
    XrdFile.create st name false perms ans =
      XrdFile.open st name {IOFlag.OpenCreate, IOFlag.OpenWrite, IOFlag.OpenTruncate}
        perms ans := by
  have e : ({IOFlag.OpenCreate, IOFlag.OpenWrite, IOFlag.OpenTruncate} ∪
      (if false = true then {IOFlag.OpenExclusive} else ∅) : Finset IOFlag) =
      {IOFlag.OpenCreate, IOFlag.OpenWrite, IOFlag.OpenTruncate} := by
    decide
  unfold XrdFile.create
  rw [e]

/-- C10 (evaluation of the code): `create` is `open` with OpenCreate, OpenWrite,
OpenTruncate and, when exclusive, OpenExclusive; an exclusive `create` on a new
handle calls the endpoint's `Open` with the mode bits Update, New, MakePath and
also Delete, the replace-existing bit, which the truncate-and-write rule adds
although the create rule withheld it. -/
theorem C10_exclusive_create_requests_delete :
    (∀ st name perms ans, XrdFile.create st name true perms ans =
      XrdFile.open st name
        {IOFlag.OpenCreate, IOFlag.OpenWrite, IOFlag.OpenTruncate, IOFlag.OpenExclusive}
        perms ans) ∧
    (∀ st name perms ans, XrdFile.create st name false perms ans =
      XrdFile.open st name {IOFlag.OpenCreate, IOFlag.OpenWrite, IOFlag.OpenTruncate}
        perms ans) ∧
    (XrdFile.create XrdFile.new (some "data.root") true 438 sampleOpenAnswer).calls =
      [EndpointCall.construct,
       EndpointCall.Open "data.root"
         {OpenFlag.Update, OpenFlag.New, OpenFlag.MakePath, OpenFlag.Delete} 438,
       EndpointCall.Stat true, EndpointCall.GetDataServer] ∧
    OpenFlag.New ∈ XrdFile.translateFlags
      {IOFlag.OpenCreate, IOFlag.OpenWrite, IOFlag.OpenTruncate, IOFlag.OpenExclusive} ∧
    OpenFlag.Delete ∈ XrdFile.translateFlags
      {IOFlag.OpenCreate, IOFlag.OpenWrite, IOFlag.OpenTruncate, IOFlag.OpenExclusive} := by
  refine ⟨create_exclusive, create_plain, ?_, by decide, by decide⟩
  have hmode : XrdFile.translateFlags
      {IOFlag.OpenCreate, IOFlag.OpenWrite, IOFlag.OpenTruncate, IOFlag.OpenExclusive} =
      {OpenFlag.Update, OpenFlag.New, OpenFlag.MakePath, OpenFlag.Delete} := by
    decide
  rw [create_exclusive]
  simp [XrdFile.open, XrdFile.closeOld, XrdFile.new, sampleOpenAnswer, hmode]

/-! ## C11: failing `position` calls -/

/-- C11: `position` with a `whence` outside SET, CURRENT, END throws
`FilePositionError` and leaves the handle (cursor, `cached_size` and all other
members) unchanged; on a handle without a session `position` throws
`FilePositionError` for every offset and every `whence` and leaves the handle
unchanged. -/
theorem C11_position_errors (st : XrdFile) (offset : Int) (whence : Relative)
    (h : (∃ raw, whence = .other raw) ∨ st.m_file = false) :
    (XrdFile.position st offset whence).outcome = .thrown .FilePositionError ∧
    (XrdFile.position st offset whence).state = st ∧
    (XrdFile.position st offset whence).state.m_offset = st.m_offset ∧
    (XrdFile.position st offset whence).state.m_size = st.m_size := by
  rcases h with ⟨raw, rfl⟩ | h
  · unfold XrdFile.position
    cases st.m_file <;> simp
  · simp [XrdFile.position, h]

/-- Witness of C11: an out-of-range `whence` on an open handle. -/
theorem C11_position_errors_witness :
    ((∃ raw, Relative.other 7 = .other raw) ∨ sampleOpen.m_file = false) ∧
    (XrdFile.position sampleOpen 10 (.other 7)).outcome = .thrown .FilePositionError ∧
    (XrdFile.position sampleOpen 10 (.other 7)).state = sampleOpen ∧
    (XrdFile.position sampleOpen 10 (.other 7)).state.m_offset = sampleOpen.m_offset ∧
    (XrdFile.position sampleOpen 10 (.other 7)).state.m_size = sampleOpen.m_size :=
  ⟨Or.inl ⟨7, rfl⟩, C11_position_errors sampleOpen 10 (.other 7) (Or.inl ⟨7, rfl⟩)⟩

/-! ## Invariants along sequences of calls -/

theorem survives_eq {α : Type} {r : Result α} {st1 : XrdFile} (h : survives r = some st1) :
    st1 = r.state := by
  unfold survives at h
  split at h
  · cases h
  · exact (Option.some.inj h).symm

/-- A property that every admitted call preserves holds after every run. -/
theorem runCalls_invariant (allowed : XrdFile → Call → Bool) (P : XrdFile → Prop)
    (hstep : ∀ st c st1, P st → allowed st c = true → Call.after st c = some st1 → P st1) :
    ∀ (cs : List Call) (st st1 : XrdFile), P st → runCalls allowed st cs = some st1 → P st1 := by
  intro cs
  induction cs with
  | nil =>
    intro st st1 hP hrun
    simp only [runCalls, Option.some.injEq] at hrun
    exact hrun ▸ hP
  | cons c cs ih =>
    intro st st1 hP hrun
    simp only [runCalls] at hrun
    split_ifs at hrun with hal
    cases hafter : Call.after st c with
    | none => simp [hafter] at hrun
    | some st2 =>
      simp only [hafter] at hrun
      exact ih st2 st1 (hstep st c st2 hP hal hafter) hrun

/-! ### The members of the state after each operation -/

theorem closeOld_state (st : XrdFile) (closeOk : Bool) :
    (XrdFile.closeOld st closeOk).state = st ∧ st.m_file = false ∨
    (XrdFile.closeOld st closeOk).state =
      { st with m_file := false, m_close := false, m_offset := 0, m_size := -1 } := by
  unfold XrdFile.closeOld XrdFile.close XrdFile.abort
  cases h1 : st.m_file <;> cases h2 : st.m_close <;> simp

/-- After `open`, whatever its outcome, the handle is unchanged, or has the
closed defaults (old session dropped, nothing installed), or holds a session
object with cursor either 0 or the old one. -/
theorem open_state (st : XrdFile) (name : Option String) (flags : Finset IOFlag)
    (perms : Nat) (ans : OpenAnswer) :
    (XrdFile.open st name flags perms ans).state = st ∨
    ((XrdFile.open st name flags perms ans).state.m_file = false ∧
      (XrdFile.open st name flags perms ans).state.m_offset = 0 ∧
      (XrdFile.open st name flags perms ans).state.m_size = -1) ∨
    ((XrdFile.open st name flags perms ans).state.m_file = true ∧
      ((XrdFile.open st name flags perms ans).state.m_offset = 0 ∨
        (XrdFile.open st name flags perms ans).state.m_offset = st.m_offset)) := by
  unfold XrdFile.open
  cases name with
  | none => exact Or.inl rfl
  | some nm =>
    simp only
    split_ifs
    · exact Or.inl rfl
    · exact Or.inl rfl
    · rcases closeOld_state st ans.closeOk with ⟨h, _⟩ | h
      · exact Or.inl h
      · exact Or.inr (Or.inl (by rw [h]; simp))
    · refine Or.inr (Or.inr ⟨rfl, ?_⟩)
      rcases closeOld_state st ans.closeOk with ⟨h, _⟩ | h <;> rw [h] <;> simp
    · refine Or.inr (Or.inr ⟨rfl, ?_⟩)
      rcases closeOld_state st ans.closeOk with ⟨h, _⟩ | h <;> rw [h] <;> simp
    · cases ans.statInfo with
      | none =>
        refine Or.inr (Or.inr ⟨rfl, ?_⟩)
        rcases closeOld_state st ans.closeOk with ⟨h, _⟩ | h <;> rw [h] <;> simp
      | some size => exact Or.inr (Or.inr ⟨rfl, Or.inl rfl⟩)

theorem close_state (st : XrdFile) (closeOk : Bool) :
    ((XrdFile.close st closeOk).state = { st with m_close := false } ∧ st.m_file = false) ∨
    ((XrdFile.close st closeOk).state =
      { st with m_file := false, m_close := false, m_offset := 0, m_size := -1 } ∧
      st.m_file = true) := by
  unfold XrdFile.close
  cases h : st.m_file <;> simp

theorem read_state (st : XrdFile) (n : Nat) (ans : ReadAnswer) :
    (XrdFile.read st n ans).state = st ∨
    (st.m_file = true ∧ ans.ok = true ∧
      (XrdFile.read st n ans).state =
        { st with m_offset := toInt64 (st.m_offset + (ans.bytesRead : Int)) }) := by
  simp only [XrdFile.read]
  split_ifs with h1 h2 h3
  · exact Or.inl rfl
  · exact Or.inl rfl
  · exact Or.inl rfl
  · exact Or.inr ⟨by simpa using h2, by simpa using h3, rfl⟩

theorem readPos_state (st : XrdFile) (n : Nat) (pos : Int) (ans : ReadAnswer) :
    (XrdFile.readPos st n pos ans).state = st := by
  simp only [XrdFile.readPos]
  split_ifs <;> rfl

theorem readv_state (st : XrdFile) (into : List IOPosBuffer) (ans : ReadvAnswer) :
    (XrdFile.readv st into ans).state = st := by
  cases hf : st.m_file
  · simp [XrdFile.readv, hf]
  · match into with
    | [] => simp [XrdFile.readv, hf]
    | [b] =>
      have e : XrdFile.readv st [b] ans = XrdFile.readPos st b.size b.offset ans.single := by
        simp [XrdFile.readv, hf]
      rw [e]
      exact readPos_state st _ _ _
    | b1 :: b2 :: tl =>
      simp only [XrdFile.readv, hf, Bool.not_true, Bool.false_eq_true, if_false]
      cases ans.batched.ok
      · rfl
      · cases ans.batched.info <;> rfl

theorem write_state (st : XrdFile) (n : Nat) (writeOk : Bool) :
    (XrdFile.write st n writeOk).state = st ∨
    (st.m_file = true ∧ writeOk = true ∧
      (XrdFile.write st n writeOk).state.m_file = true ∧
      (XrdFile.write st n writeOk).state.m_offset = toInt64 (st.m_offset + (n : Int)) ∧
      st.m_size ≤ (XrdFile.write st n writeOk).state.m_size) := by
  simp only [XrdFile.write]
  split_ifs with h1 h2 h3 h4 h5
  · exact Or.inl rfl
  · exact Or.inl rfl
  · exact Or.inl rfl
  · exact Or.inr ⟨by simpa using h2, by simpa using h3, by simpa using h2, rfl, le_refl _⟩
  · exact Or.inr ⟨by simpa using h2, by simpa using h3, by simpa using h2, rfl,
      le_of_lt (by simpa using h5)⟩
  · exact Or.inr ⟨by simpa using h2, by simpa using h3, by simpa using h2, rfl, le_refl _⟩

theorem writePos_state (st : XrdFile) (n : Nat) (pos : Int) (writeOk : Bool) :
    (XrdFile.writePos st n pos writeOk).state.m_file = st.m_file ∧
    (XrdFile.writePos st n pos writeOk).state.m_offset = st.m_offset ∧
    st.m_size ≤ (XrdFile.writePos st n pos writeOk).state.m_size ∧
    ((XrdFile.writePos st n pos writeOk).state = st ∨ st.m_file = true) := by
  unfold XrdFile.writePos
  split_ifs with h1 h2 h3 h4 h5
  · exact ⟨rfl, rfl, le_refl _, Or.inl rfl⟩
  · exact ⟨rfl, rfl, le_refl _, Or.inl rfl⟩
  · exact ⟨rfl, rfl, le_refl _, Or.inl rfl⟩
  · exact ⟨rfl, rfl, le_refl _, Or.inl rfl⟩
  · exact ⟨rfl, rfl, le_of_lt h5, Or.inr (by simpa using h2)⟩
  · exact ⟨rfl, rfl, le_refl _, Or.inl rfl⟩

theorem positionTail_state (st : XrdFile) :
    (XrdFile.positionTail st).state.m_file = st.m_file ∧
    0 ≤ (XrdFile.positionTail st).state.m_offset ∧
    st.m_size ≤ (XrdFile.positionTail st).state.m_size := by
  unfold XrdFile.positionTail
  by_cases h0 : st.m_offset < 0
  · simp only [h0, if_true]
    split_ifs with h1 h2
    · exact ⟨rfl, le_refl _, le_refl _⟩
    · exact ⟨rfl, le_refl _, le_of_lt h2⟩
    · exact ⟨rfl, le_refl _, le_refl _⟩
  · simp only [h0, if_false]
    split_ifs with h1 h2
    · exact ⟨rfl, not_lt.mp h0, le_refl _⟩
    · exact ⟨rfl, not_lt.mp h0, le_of_lt h2⟩
    · exact ⟨rfl, not_lt.mp h0, le_refl _⟩

theorem position_state (st : XrdFile) (offset : Int) (whence : Relative) :
    (XrdFile.position st offset whence).state = st ∨
    (st.m_file = true ∧
      (XrdFile.position st offset whence).state.m_file = true ∧
      0 ≤ (XrdFile.position st offset whence).state.m_offset ∧
      st.m_size ≤ (XrdFile.position st offset whence).state.m_size) := by
  by_cases hf : st.m_file = true
  · have hne : (!st.m_file) = false := by simp [hf]
    cases whence with
    | SET =>
      obtain ⟨h1, h2, h3⟩ := positionTail_state { st with m_offset := offset }
      simp only [XrdFile.position, hne, Bool.false_eq_true, if_false]
      exact Or.inr ⟨hf, h1.trans hf, h2, h3⟩
    | CURRENT =>
      obtain ⟨h1, h2, h3⟩ :=
        positionTail_state { st with m_offset := toInt64 (st.m_offset + offset) }
      simp only [XrdFile.position, hne, Bool.false_eq_true, if_false]
      exact Or.inr ⟨hf, h1.trans hf, h2, h3⟩
    | END =>
      simp only [XrdFile.position, hne, Bool.false_eq_true, if_false]
      split_ifs
      · exact Or.inl rfl
      · obtain ⟨h1, h2, h3⟩ :=
          positionTail_state { st with m_offset := toInt64 (st.m_size + offset) }
        exact Or.inr ⟨hf, h1.trans hf, h2, h3⟩
    | other raw =>
      simp only [XrdFile.position, hne, Bool.false_eq_true, if_false]
      exact Or.inl trivial
  · have hne : (!st.m_file) = true := by simpa using hf
    simp only [XrdFile.position, hne, if_true]
    exact Or.inl trivial

/-! ## C12: close -/

/-- Every call keeps the rule "no session, then cursor 0 and size -1". -/
theorem closedDefaults_step (st : XrdFile) (c : Call) (st1 : XrdFile)
    (hP : st.m_file = false → st.m_offset = 0 ∧ st.m_size = -1)
    (hafter : Call.after st c = some st1) :
    st1.m_file = false → st1.m_offset = 0 ∧ st1.m_size = -1 := by
  cases c with
  | «open» name flags perms ans =>
    have e := survives_eq hafter
    rcases open_state st name flags perms ans with h | h | h
    · rw [e, h]; exact hP
    · rw [e]; exact fun _ => h.2
    · rw [e]; intro hf; rw [h.1] at hf; cases hf
  | create name exclusive perms ans =>
    have e := survives_eq hafter
    rcases open_state st name _ perms ans with h | h | h
    · rw [e]; unfold XrdFile.create; rw [h]; exact hP
    · rw [e]; exact fun _ => h.2
    · rw [e]; intro hf; unfold XrdFile.create at hf; rw [h.1] at hf; cases hf
  | close closeOk =>
    have e := survives_eq hafter
    rcases close_state st closeOk with ⟨h, hf⟩ | ⟨h, _⟩
    · rw [e, h]; exact fun _ => hP hf
    · rw [e, h]; exact fun _ => ⟨rfl, rfl⟩
  | abort =>
    have e : st1 = (XrdFile.abort st).state := survives_eq hafter
    rw [e]; exact fun _ => ⟨rfl, rfl⟩
  | read n ans =>
    have e := survives_eq hafter
    rcases read_state st n ans with h | ⟨hf, _, h⟩
    · rw [e, h]; exact hP
    · rw [e, h]; intro hf1; rw [hf] at hf1; cases hf1
  | readPos n pos ans =>
    rw [survives_eq hafter, readPos_state]; exact hP
  | readv into ans =>
    rw [survives_eq hafter, readv_state]; exact hP
  | readvBuffers into ans =>
    have e := survives_eq hafter
    rw [e]; unfold XrdFile.readvBuffers; rw [readv_state]; exact hP
  | write n writeOk =>
    have e := survives_eq hafter
    rcases write_state st n writeOk with h | ⟨_, _, hf, _⟩
    · rw [e, h]; exact hP
    · rw [e]; intro hf1; rw [hf] at hf1; cases hf1
  | writePos n pos writeOk =>
    have e := survives_eq hafter
    obtain ⟨_, _, _, h | hf⟩ := writePos_state st n pos writeOk
    · rw [e, h]; exact hP
    · rw [e]; intro hf1; rw [(writePos_state st n pos writeOk).1, hf] at hf1; cases hf1
  | position offset whence =>
    have e := survives_eq hafter
    rcases position_state st offset whence with h | ⟨_, hf, _⟩
    · rw [e, h]; exact hP
    · rw [e]; intro hf1; rw [hf] at hf1; cases hf1
  | resize size =>
    have e : st1 = (XrdFile.resize st size).state := survives_eq hafter
    rw [e]; exact hP
  | prefetch what =>
    simp only [Call.after, Option.some.injEq] at hafter
    rw [← hafter]; exact hP

/-- C12: in every state reachable from a new handle (by any calls, with any
arguments and any answers of the endpoint), `close` returns normally
(it never throws), whatever the endpoint's `Close` answers, and afterwards the
handle has no session, ownership flag false, cursor 0 and `cached_size` -1; the
endpoint's `Close` is requested exactly when a session was present (no call at
all on a never-opened or already closed handle). -/
theorem C12_close (st : XrdFile) (closeOk : Bool) (hreach : ReachableAny st) :
    (XrdFile.close st closeOk).outcome = .ok () ∧
    (XrdFile.close st closeOk).state.m_file = false ∧
    (XrdFile.close st closeOk).state.m_close = false ∧
    (XrdFile.close st closeOk).state.m_offset = 0 ∧
    (XrdFile.close st closeOk).state.m_size = -1 ∧
    (XrdFile.close st closeOk).calls = (if st.m_file then [EndpointCall.Close] else []) := by
  obtain ⟨cs, hrun⟩ := hreach
  have hP : st.m_file = false → st.m_offset = 0 ∧ st.m_size = -1 :=
    runCalls_invariant _ (fun s => s.m_file = false → s.m_offset = 0 ∧ s.m_size = -1)
      (fun s c s1 hs _ ha => closedDefaults_step s c s1 hs ha) cs XrdFile.new st
      (fun _ => ⟨rfl, rfl⟩) hrun
  cases hf : st.m_file
  · obtain ⟨h1, h2⟩ := hP hf
    simp [XrdFile.close, hf, h1, h2]
  · simp [XrdFile.close, hf]

/-- Witness of C12: closing a handle that was opened and already closed once,
with the endpoint's `Close` failing. -/
theorem C12_close_witness :
    ReachableAny (XrdFile.close sampleOpen false).state ∧
    (XrdFile.close (XrdFile.close sampleOpen false).state false).outcome = .ok () ∧
    (XrdFile.close (XrdFile.close sampleOpen false).state false).state.m_file = false ∧
    (XrdFile.close (XrdFile.close sampleOpen false).state false).state.m_close = false ∧
    (XrdFile.close (XrdFile.close sampleOpen false).state false).state.m_offset = 0 ∧
    (XrdFile.close (XrdFile.close sampleOpen false).state false).state.m_size = -1 ∧
    (XrdFile.close (XrdFile.close sampleOpen false).state false).calls =
      (if (XrdFile.close sampleOpen false).state.m_file then [EndpointCall.Close] else []) :=
  have hr : ReachableAny (XrdFile.close sampleOpen false).state :=
    ⟨[Call.open (some "data.root") {IOFlag.OpenRead} 438 sampleOpenAnswer, Call.close false],
      by decide⟩
  ⟨hr, C12_close (XrdFile.close sampleOpen false).state false hr⟩

/-! ## C13: the cached size never shrinks inside a session -/

/-- One session call never lowers `m_size`. -/
theorem size_step (st : XrdFile) (c : Call) (st1 : XrdFile)
    (hc : c.inSession = true) (hafter : Call.after st c = some st1) :
    st.m_size ≤ st1.m_size := by
  cases c with
  | read n ans =>
    rw [survives_eq hafter]
    rcases read_state st n ans with h | ⟨_, _, h⟩ <;> rw [h]
  | readPos n pos ans => rw [survives_eq hafter, readPos_state]
  | readv into ans => rw [survives_eq hafter, readv_state]
  | readvBuffers into ans =>
    rw [survives_eq hafter]; unfold XrdFile.readvBuffers; rw [readv_state]
  | write n writeOk =>
    rw [survives_eq hafter]
    rcases write_state st n writeOk with h | ⟨_, _, _, _, h⟩
    · rw [h]
    · exact h
  | writePos n pos writeOk =>
    rw [survives_eq hafter]
    exact (writePos_state st n pos writeOk).2.2.1
  | position offset whence =>
    rw [survives_eq hafter]
    rcases position_state st offset whence with h | ⟨_, _, _, h⟩
    · rw [h]
    · exact h
  | «open» name flags perms ans => cases hc
  | create name exclusive perms ans => cases hc
  | close closeOk => cases hc
  | abort => cases hc
  | resize size => cases hc
  | prefetch what => cases hc

/-- C13: from any state `st` (in particular any state of an open session), after
any sequence of `read`, `write` (cursor-relative or positioned), `readv` and
`position` calls, with any arguments and any answers of the endpoint, whether
the calls return or throw, `cached_size` is at least what it was in `st`; for a
one-call sequence this is the claim for a single call. -/
theorem C13_cached_size_monotone (st st1 : XrdFile) (cs : List Call)
    (hrun : runCalls (fun _ c => c.inSession) st cs = some st1) :
    st.m_size ≤ st1.m_size :=
  runCalls_invariant _ (fun s => st.m_size ≤ s.m_size)
    (fun s c s1 hs hc ha => le_trans hs (size_step s c s1 hc ha)) cs st st1 (le_refl _) hrun

/-- Witness of C13: a write past the end, a seek and a failing read on a
1000-byte file. -/
theorem C13_cached_size_monotone_witness :
    runCalls (fun _ c => c.inSession) sampleOpen
      [Call.write 2000 true, Call.position (-5) .END,
       Call.read 10 { ok := false, bytesRead := 0 }] =
      some { m_file := true, m_offset := 1995, m_size := 2000, m_close := true,
             m_name := "data.root" } ∧
    sampleOpen.m_size ≤ (2000 : Int) :=
  have hrun : runCalls (fun _ c => c.inSession) sampleOpen
      [Call.write 2000 true, Call.position (-5) .END,
       Call.read 10 { ok := false, bytesRead := 0 }] =
      some { m_file := true, m_offset := 1995, m_size := 2000, m_close := true,
             m_name := "data.root" } := by decide
  ⟨hrun, C13_cached_size_monotone sampleOpen _ _ hrun⟩

/-! ## C14: the sign of the cursor -/

/-- C14 (as stated, refuted): the well-typed calls `overflowCalls` (open, seek
to `2^63 - 1`, write one byte) lead from a new handle to a state whose cursor
is `-2^63`: a reachable state with a negative cursor. -/
theorem C14_counterexample :
    (∀ c ∈ overflowCalls, c.wellTyped = true) ∧
    runCalls (fun _ c => c.wellTyped) XrdFile.new overflowCalls = some overflowState ∧
    Reachable overflowState ∧
    overflowState.m_offset < 0 := by
  have hrun : runCalls (fun _ c => c.wellTyped) XrdFile.new overflowCalls =
      some overflowState := by decide
  exact ⟨by decide, hrun, ⟨overflowCalls, hrun⟩, by decide⟩

/-- A call that does not carry the cursor past `2^63 - 1` keeps it non-negative. -/
theorem cursor_step (st : XrdFile) (c : Call) (st1 : XrdFile) (hP : 0 ≤ st.m_offset)
    (hc : Call.noWrap st c = true) (hafter : Call.after st c = some st1) :
    0 ≤ st1.m_offset := by
  cases c with
  | «open» name flags perms ans =>
    rw [survives_eq hafter]
    rcases open_state st name flags perms ans with h | h | ⟨_, h | h⟩
    · rw [h]; exact hP
    · rw [h.2.1]
    · rw [h]
    · rw [h]; exact hP
  | create name exclusive perms ans =>
    rw [survives_eq hafter]
    unfold XrdFile.create
    rcases open_state st name _ perms ans with h | h | ⟨_, h | h⟩
    · rw [h]; exact hP
    · rw [h.2.1]
    · rw [h]
    · rw [h]; exact hP
  | close closeOk =>
    rw [survives_eq hafter]
    rcases close_state st closeOk with ⟨h, _⟩ | ⟨h, _⟩
    · rw [h]; exact hP
    · rw [h]
  | abort =>
    have e : st1 = (XrdFile.abort st).state := survives_eq hafter
    rw [e]; exact le_refl _
  | read n ans =>
    rw [survives_eq hafter]
    rcases read_state st n ans with h | ⟨_, hok, h⟩
    · rw [h]; exact hP
    · rw [h]
      simp only [Call.noWrap, hok, Bool.not_true, Bool.false_or, decide_eq_true_eq] at hc
      show 0 ≤ toInt64 (st.m_offset + (ans.bytesRead : Int))
      rw [toInt64_of_inInt64 (by unfold InInt64; omega)]
      omega
  | readPos n pos ans => rw [survives_eq hafter, readPos_state]; exact hP
  | readv into ans => rw [survives_eq hafter, readv_state]; exact hP
  | readvBuffers into ans =>
    rw [survives_eq hafter]; unfold XrdFile.readvBuffers; rw [readv_state]; exact hP
  | write n writeOk =>
    rw [survives_eq hafter]
    rcases write_state st n writeOk with h | ⟨_, hok, _, h, _⟩
    · rw [h]; exact hP
    · rw [h]
      simp only [Call.noWrap, hok, Bool.not_true, Bool.false_or, decide_eq_true_eq] at hc
      rw [toInt64_of_inInt64 (by unfold InInt64; omega)]
      omega
  | writePos n pos writeOk =>
    rw [survives_eq hafter, (writePos_state st n pos writeOk).2.1]; exact hP
  | position offset whence =>
    rw [survives_eq hafter]
    rcases position_state st offset whence with h | ⟨_, _, h, _⟩
    · rw [h]; exact hP
    · exact h
  | resize size =>
    have e : st1 = (XrdFile.resize st size).state := survives_eq hafter
    rw [e]; exact hP
  | prefetch what =>
    simp only [Call.after, Option.some.injEq] at hafter
    rw [← hafter]; exact hP

/-- C14 (amended): in every state reachable from a new handle by calls in which
no successful cursor-relative `read` or `write` carries the cursor past
`2^63 - 1`, the cursor is non-negative. -/
theorem C14_cursor_nonneg (st : XrdFile) (hreach : ReachableNoWrap st) :
    0 ≤ st.m_offset := by
  obtain ⟨cs, hrun⟩ := hreach
  refine runCalls_invariant _ (fun s => 0 ≤ s.m_offset) ?_ cs XrdFile.new st (le_refl _) hrun
  intro s c s1 hs hal ha
  exact cursor_step s c s1 hs hal ha

/-- Witness of C14 (amended): open, seek far before the start, write 100 bytes. -/
theorem C14_cursor_nonneg_witness :
    ReachableNoWrap seekWriteState ∧ 0 ≤ seekWriteState.m_offset :=
  have hr : ReachableNoWrap seekWriteState := ⟨seekWriteCalls, by decide⟩
  ⟨hr, C14_cursor_nonneg seekWriteState hr⟩

/-! ## C15: the length check -/

/-- No request reaches the endpoint through `addConnection`. -/
theorem addConnection_no_request (st : XrdFile) :
    ∀ c ∈ addConnection st, EndpointCall.isRequest c = false := by
  intro c hc
  unfold addConnection at hc
  cases h : st.m_file <;> simp [h] at hc
  subst hc
  rfl

/-- C15 (as stated, refuted): on an open handle a `read` of `2^31` bytes throws
`FileReadError` after one call on the endpoint client, the data-server query of
`addConnection`; the same holds for the other three overloads. -/
theorem C15_counterexample :
    (XrdFile.read sampleOpen (2 ^ 31) { ok := true, bytesRead := 0 }).outcome =
      .thrown .FileReadError ∧
    (XrdFile.read sampleOpen (2 ^ 31) { ok := true, bytesRead := 0 }).calls =
      [EndpointCall.GetDataServer] ∧
    (XrdFile.readPos sampleOpen (2 ^ 31) 0 { ok := true, bytesRead := 0 }).calls =
      [EndpointCall.GetDataServer] ∧
    (XrdFile.write sampleOpen (2 ^ 31) true).calls = [EndpointCall.GetDataServer] ∧
    (XrdFile.writePos sampleOpen (2 ^ 31) 0 true).calls = [EndpointCall.GetDataServer] := by
  refine ⟨?_, ?_, ?_, ?_, ?_⟩ <;>
    simp [XrdFile.read, XrdFile.readPos, XrdFile.write, XrdFile.writePos, addConnection,
      sampleOpen]

/-- C15 (amended): for `n > 0x7fffffff` both `read` overloads throw
`FileReadError` and both `write` overloads throw `FileWriteError`, in every
handle state, with the handle unchanged and with no request sent to the
endpoint: the only call on the client object is the data-server query of
`addConnection`, made when a session exists.  For `n ≤ 0x7fffffff` on a handle
with a session the length check rejects nothing: the first endpoint call is the
`Read` or `Write` of `n` bytes. -/
theorem C15_length_check (st : XrdFile) (n : Nat) (pos : Int) (ans : ReadAnswer)
    (writeOk : Bool) :
    (0x7fffffff < n →
      ((XrdFile.read st n ans).outcome = .thrown .FileReadError ∧
        (XrdFile.read st n ans).state = st ∧
        (XrdFile.read st n ans).calls = addConnection st) ∧
      ((XrdFile.readPos st n pos ans).outcome = .thrown .FileReadError ∧
        (XrdFile.readPos st n pos ans).state = st ∧
        (XrdFile.readPos st n pos ans).calls = addConnection st) ∧
      ((XrdFile.write st n writeOk).outcome = .thrown .FileWriteError ∧
        (XrdFile.write st n writeOk).state = st ∧
        (XrdFile.write st n writeOk).calls = addConnection st) ∧
      ((XrdFile.writePos st n pos writeOk).outcome = .thrown .FileWriteError ∧
        (XrdFile.writePos st n pos writeOk).state = st ∧
        (XrdFile.writePos st n pos writeOk).calls = addConnection st) ∧
      (∀ c ∈ addConnection st, EndpointCall.isRequest c = false)) ∧
    (n ≤ 0x7fffffff → st.m_file = true →
      (XrdFile.read st n ans).calls.head? = some (EndpointCall.Read st.m_offset n) ∧
      (XrdFile.readPos st n pos ans).calls.head? = some (EndpointCall.Read pos n) ∧
      (XrdFile.write st n writeOk).calls.head? = some (EndpointCall.Write st.m_offset n) ∧
      (XrdFile.writePos st n pos writeOk).calls.head? = some (EndpointCall.Write pos n)) := by
  constructor
  · intro hn
    refine ⟨?_, ?_, ?_, ?_, addConnection_no_request st⟩
    · simp [XrdFile.read, hn]
    · simp [XrdFile.readPos, hn]
    · simp [XrdFile.write, hn]
    · simp [XrdFile.writePos, hn]
  · intro hn hfile
    have hn' : ¬ (0x7fffffff < n) := by omega
    refine ⟨?_, ?_, ?_, ?_⟩
    · cases h : ans.ok <;> simp [XrdFile.read, hn', hfile, h]
    · cases h : ans.ok <;> simp [XrdFile.readPos, hn', hfile, h]
    · simp only [XrdFile.write, hn', hfile, if_false, Bool.not_true, Bool.false_eq_true]
      cases writeOk
      · simp
      · simp only [Bool.not_true, Bool.false_eq_true, if_false]
        split_ifs <;> rfl
    · simp only [XrdFile.writePos, hn', hfile, if_false, Bool.not_true, Bool.false_eq_true]
      cases writeOk
      · simp
      · simp only [Bool.not_true, Bool.false_eq_true, if_false]
        split_ifs <;> rfl

/-- Witness of C15 (amended): a request of `2^31` bytes is rejected, a request
of 100 bytes is delegated. -/
theorem C15_length_check_witness :
    (0x7fffffff < 2 ^ 31 ∧ 100 ≤ 0x7fffffff ∧ sampleOpen.m_file = true) ∧
    (XrdFile.read sampleOpen (2 ^ 31) { ok := true, bytesRead := 0 }).state = sampleOpen ∧
    (XrdFile.write sampleOpen (2 ^ 31) true).outcome = .thrown .FileWriteError ∧
    (XrdFile.read sampleOpen 100 { ok := true, bytesRead := 60 }).calls.head? =
      some (EndpointCall.Read sampleOpen.m_offset 100) :=
  have h1 := (C15_length_check sampleOpen (2 ^ 31) 0 { ok := true, bytesRead := 0 } true).1
    (by decide)
  have h2 := (C15_length_check sampleOpen 100 0 { ok := true, bytesRead := 60 } true).2
    (by decide) rfl
  ⟨⟨by decide, by decide, rfl⟩, h1.1.2.1, h1.2.2.1.1, h2.1⟩

/-! ## C16, C17: reads and positioned writes on an open handle -/

/-- C16 (as stated, refuted): on the open handle `lastOffsetState` (cursor
`2^63 - 1`, reached by `lastOffsetCalls`) a `read` of one byte that the endpoint
answers with one byte returns 1 and leaves the cursor at `-2^63`, not at
`cursor_before + 1`. -/
theorem C16_counterexample :
    runCalls (fun _ c => c.wellTyped) XrdFile.new lastOffsetCalls = some lastOffsetState ∧
    (XrdFile.read lastOffsetState 1 { ok := true, bytesRead := 1 }).outcome = .ok 1 ∧
    (XrdFile.read lastOffsetState 1 { ok := true, bytesRead := 1 }).state.m_offset =
      -(2 ^ 63) ∧
    (XrdFile.read lastOffsetState 1 { ok := true, bytesRead := 1 }).state.m_offset ≠
      lastOffsetState.m_offset + 1 := by
  decide

/-- C16 (amended): on an open handle with `n ≤ 0x7fffffff`, `read (buffer, n)`
asks the endpoint for `n` bytes at the cursor; when the endpoint succeeds with
`k` bytes it returns `k` and sets the cursor to `cursor_before + k` reduced
modulo `2^64` into the signed 64-bit range (the exact sum whenever
`cursor_before + k ≤ 2^63 - 1`), `cached_size` unchanged.  `read (buffer, n, pos)` asks the endpoint for `n` bytes at `pos`,
returns the endpoint's byte count and leaves the handle unchanged.  When the
endpoint fails, both throw `FileReadError` and leave the handle unchanged. -/
theorem C16_read_open (st : XrdFile) (n : Nat) (pos : Int) (k : Nat)
    (hfile : st.m_file = true) (hn : n ≤ 0x7fffffff) :
    (∀ ok, (XrdFile.read st n { ok := ok, bytesRead := k }).calls.head? =
      some (EndpointCall.Read st.m_offset n)) ∧
    (XrdFile.read st n { ok := true, bytesRead := k }).outcome = .ok k ∧
    (XrdFile.read st n { ok := true, bytesRead := k }).state =
      { st with m_offset := toInt64 (st.m_offset + (k : Int)) } ∧
    (InInt64 (st.m_offset + (k : Int)) →
      (XrdFile.read st n { ok := true, bytesRead := k }).state.m_offset =
        st.m_offset + (k : Int)) ∧
    (XrdFile.read st n { ok := true, bytesRead := k }).state.m_size = st.m_size ∧
    (XrdFile.read st n { ok := false, bytesRead := k }).outcome = .thrown .FileReadError ∧
    (XrdFile.read st n { ok := false, bytesRead := k }).state = st ∧
    (∀ ok, (XrdFile.readPos st n pos { ok := ok, bytesRead := k }).calls.head? =
      some (EndpointCall.Read pos n)) ∧
    (XrdFile.readPos st n pos { ok := true, bytesRead := k }).outcome = .ok k ∧
    (XrdFile.readPos st n pos { ok := true, bytesRead := k }).state = st ∧
    (XrdFile.readPos st n pos { ok := false, bytesRead := k }).outcome =
      .thrown .FileReadError ∧
    (XrdFile.readPos st n pos { ok := false, bytesRead := k }).state = st := by
  have hn' : ¬ (0x7fffffff < n) := by omega
  refine ⟨?_, ?_, ?_, ?_, ?_, ?_, ?_, ?_, ?_, ?_, ?_, ?_⟩
  · intro ok; cases ok <;> simp [XrdFile.read, hn', hfile]
  · simp [XrdFile.read, hn', hfile]
  · simp [XrdFile.read, hn', hfile]
  · intro hin
    simp [XrdFile.read, hn', hfile, toInt64_of_inInt64 hin]
  · simp [XrdFile.read, hn', hfile]
  · simp [XrdFile.read, hn', hfile]
  · simp [XrdFile.read, hn', hfile]
  · intro ok; cases ok <;> simp [XrdFile.readPos, hn', hfile]
  · simp [XrdFile.readPos, hn', hfile]
  · simp [XrdFile.readPos, hn', hfile]
  · simp [XrdFile.readPos, hn', hfile]
  · simp [XrdFile.readPos, hn', hfile]

/-- Witness of C16 (amended): a short read of 60 bytes out of 100 requested. -/
theorem C16_read_open_witness :
    (sampleOpen.m_file = true ∧ 100 ≤ 0x7fffffff) ∧
    (XrdFile.read sampleOpen 100 { ok := true, bytesRead := 60 }).outcome = .ok 60 ∧
    (XrdFile.read sampleOpen 100 { ok := true, bytesRead := 60 }).state =
      { sampleOpen with m_offset := toInt64 (sampleOpen.m_offset + ((60 : Nat) : Int)) } ∧
    (XrdFile.readPos sampleOpen 100 500 { ok := true, bytesRead := 60 }).state = sampleOpen :=
  have h := C16_read_open sampleOpen 100 500 60 rfl (by decide)
  ⟨⟨rfl, by decide⟩, h.2.1, h.2.2.1, h.2.2.2.2.2.2.2.2.2.1⟩

/-- C18: on an open handle, `readv` with the single segment
`(offset, buffer, length)` is the positioned `read (buffer, length, offset)`:
same outcome (byte count or error, `FileReadError` when `length > 0x7fffffff`),
same handle state, same endpoint calls; no `VectorRead` is issued, and for
`length ≤ 0x7fffffff` the first call is the `Read` of `length` bytes at
`offset`. -/
theorem C18_readv_single (st : XrdFile) (b : IOPosBuffer) (ans : ReadvAnswer)
    (hfile : st.m_file = true) :
    (XrdFile.readv st [b] ans).outcome =
      (XrdFile.readPos st b.size b.offset ans.single).outcome ∧
    (XrdFile.readv st [b] ans).state = (XrdFile.readPos st b.size b.offset ans.single).state ∧
    (XrdFile.readv st [b] ans).calls = (XrdFile.readPos st b.size b.offset ans.single).calls ∧
    (∀ cl, EndpointCall.VectorRead cl ∉ (XrdFile.readv st [b] ans).calls) ∧
    (0x7fffffff < b.size → (XrdFile.readv st [b] ans).outcome = .thrown .FileReadError) ∧
    (b.size ≤ 0x7fffffff →
      (XrdFile.readv st [b] ans).calls.head? = some (EndpointCall.Read b.offset b.size)) := by
  have e : XrdFile.readv st [b] ans = XrdFile.readPos st b.size b.offset ans.single := by
    simp [XrdFile.readv, hfile]
  rw [e]
  refine ⟨rfl, rfl, rfl, ?_, ?_, ?_⟩
  · intro cl
    unfold XrdFile.readPos addConnection
    split_ifs <;> simp
  · intro hbig
    simp [XrdFile.readPos, hbig]
  · intro hsmall
    have hn' : ¬ (0x7fffffff < b.size) := by omega
    cases h : ans.single.ok <;> simp [XrdFile.readPos, hn', hfile, h]

/-- Witness of C18: one segment of 100 bytes at offset 500. -/
theorem C18_readv_single_witness :
    sampleOpen.m_file = true ∧
    (XrdFile.readv sampleOpen [{ offset := 500, data := 4096, size := 100 }]
      sampleReadvAnswer).outcome =
      (XrdFile.readPos sampleOpen 100 500 sampleReadvAnswer.single).outcome ∧
    (XrdFile.readv sampleOpen [{ offset := 500, data := 4096, size := 100 }]
      sampleReadvAnswer).state =
      (XrdFile.readPos sampleOpen 100 500 sampleReadvAnswer.single).state ∧
    (XrdFile.readv sampleOpen [{ offset := 500, data := 4096, size := 100 }]
      sampleReadvAnswer).calls =
      (XrdFile.readPos sampleOpen 100 500 sampleReadvAnswer.single).calls :=
  have h := C18_readv_single sampleOpen { offset := 500, data := 4096, size := 100 }
    sampleReadvAnswer rfl
  ⟨rfl, h.1, h.2.1, h.2.2.1⟩

/-- C19 (as stated, refuted): on a handle without a session `readv` with no
segment does not return 0; it stops at `assert (m_file.get ())`, the first
statement of the function. -/
theorem C19_counterexample :
    (XrdFile.readv XrdFile.new [] sampleReadvAnswer).outcome = .crash .assertFailed ∧
    (XrdFile.readv XrdFile.new [] sampleReadvAnswer).outcome ≠ .ok 0 := by
  decide

/-- C19 (amended): on every handle that holds a session, `readv` with no segment
returns 0, makes no call on the endpoint client and leaves the handle
unchanged. -/
theorem C19_readv_empty (st : XrdFile) (ans : ReadvAnswer) (hfile : st.m_file = true) :
    (XrdFile.readv st [] ans).outcome = .ok 0 ∧
    (XrdFile.readv st [] ans).calls = [] ∧
    (XrdFile.readv st [] ans).state = st := by
  simp [XrdFile.readv, hfile]

/-- Witness of C19 (amended). -/
theorem C19_readv_empty_witness :
    sampleOpen.m_file = true ∧
    (XrdFile.readv sampleOpen [] sampleReadvAnswer).outcome = .ok 0 ∧
    (XrdFile.readv sampleOpen [] sampleReadvAnswer).calls = [] ∧
    (XrdFile.readv sampleOpen [] sampleReadvAnswer).state = sampleOpen :=
  ⟨rfl, C19_readv_empty sampleOpen sampleReadvAnswer rfl⟩

/-! ## C20: resize -/

/-- C20: in every handle state and for every size, `resize` throws
`FileResizeError` (it never returns normally), leaves the handle (session,
cursor, `cached_size`, ownership flag, name) unchanged, and sends no request to
the endpoint: the only call on the client object is the data-server query of
`addConnection`, made when a session exists. -/
theorem C20_resize_fails (st : XrdFile) (size : Int) :
    (XrdFile.resize st size).outcome = .thrown .FileResizeError ∧
    (XrdFile.resize st size).state = st ∧
    (XrdFile.resize st size).calls = addConnection st ∧
    (∀ c ∈ (XrdFile.resize st size).calls, EndpointCall.isRequest c = false) ∧
    (st.m_file = false → (XrdFile.resize st size).calls = []) :=
  ⟨rfl, rfl, rfl, addConnection_no_request st, fun h => by simp [XrdFile.resize, addConnection, h]⟩

end XrdAdaptor
